import Mathlib

/-!
Verification of the `run_emu_android` tool (a Flutter/Android build-and-repair
cascade) against its natural-language specification.

The Python sources are shallowly embedded: pure string manipulation
(`re.sub` / `re.search` with the concrete patterns appearing in the source)
becomes executable functions on `List Char`; subprocess results, filesystem
contents and poll observations become explicit environment records threaded
through the translated control flow.
-/

namespace RunEmuAndroid

/-! ## String infrastructure

Substring containment (Python's `in` operator on `str`) and the specific
regular expressions used by the source, implemented as executable matchers
over `List Char`. -/

/-- `chListPre n h` is true when `n` is a prefix of `h` (character lists). -/
def chListPre : List Char → List Char → Bool
  | [], _ => true
  | _ :: _, [] => false
  | c :: cs, d :: ds => c == d && chListPre cs ds

/-- `containsSub n h` is true when `n` occurs as a contiguous substring of `h`:
Python's `n in h` on strings. -/
def containsSub (needle : List Char) : List Char → Bool
  | [] => chListPre needle []
  | d :: ds => chListPre needle (d :: ds) || containsSub needle ds

/-- Python's `needle in hay` for strings. -/
def strContains (hay needle : String) : Bool :=
  containsSub needle.data hay.data

/-- The apostrophe character (ASCII 39), one of the two quote characters
recognised by the gradle-file patterns. -/
def squote : Char := Char.ofNat 39

/-- Open-brace character (ASCII 123). -/
def obrace : Char := Char.ofNat 123

/-- Python's `\s` character class (whitespace). -/
def isPySpace (c : Char) : Bool :=
  c == ' ' || c == '\t' || c == '\n' || c == '\r' ||
  c == Char.ofNat 11 || c == Char.ofNat 12

/-- Characters matched by the regex class `['"]`. -/
def isQuoteCh (c : Char) : Bool := c == '"' || c == squote

/-- Characters matched by the regex class `[0-9.]`. -/
def isVerCh (c : Char) : Bool := c.isDigit || c == '.'

/-- Consume an exact literal from the front of the input, returning the rest. -/
def dropLit : List Char → List Char → Option (List Char)
  | [], l => some l
  | _ :: _, [] => none
  | c :: cs, d :: ds => if c == d then dropLit cs ds else none

/-- `\s+` followed by nothing: consume a maximal non-empty whitespace run. -/
def dropSpaces1 : List Char → Option (List Char)
  | [] => none
  | c :: rest =>
    if isPySpace c then some (rest.dropWhile isPySpace) else none

/-- `.*?['"]`: lazily scan (never across a newline, since `.` excludes `\n`)
up to the first quote character, returning that quote and the remainder. -/
def lazyToQuote : List Char → Option (Char × List Char)
  | [] => none
  | c :: rest =>
    if isQuoteCh c then some (c, rest)
    else if c == '\n' then none
    else lazyToQuote rest

/-- The literal `ndkVersion` as a character list. -/
def ndkvLit : List Char := "ndkVersion".data

/-! ## Regex substitution engine

`re.sub` replaces every non-overlapping match, scanning left to right; on a
failed match at a position the scan advances one character.  A matcher returns
the replacement text for the match together with the unconsumed remainder.
The engine is fuelled (every matcher used consumes at least one character, so
`input.length` fuel is always enough). -/

/-- One fuelled pass of `re.sub`: at each position try the matcher; on success
emit its replacement and continue after the match, otherwise keep the
character and move on. -/
def reSubG (pat : List Char → Option (List Char × List Char)) :
    Nat → List Char → List Char
  | 0, l => l
  | _ + 1, [] => []
  | fuel + 1, c :: rest =>
    match pat (c :: rest) with
    | some (r, remaining) => r ++ reSubG pat fuel remaining
    | none => c :: reSubG pat fuel rest

/-- `re.sub` with fuel `input.length`. -/
def reSub (pat : List Char → Option (List Char × List Char))
    (l : List Char) : List Char :=
  reSubG pat l.length l

/-- Leftmost `re.search` for a matcher that also extracts a capture group:
returns the group of the first position where the matcher succeeds. -/
def reSearchG (pat : List Char → Option (List Char × List Char)) :
    List Char → Option (List Char × List Char)
  | [] => none
  | c :: rest =>
    match pat (c :: rest) with
    | some gr => some gr
    | none => reSearchG pat rest

/-! ## Command Runner — `utils.run_command`

The subprocess call is abstracted as an `ExecOutcome`: the command either
completed with an exit code and combined stdout/stderr text, expired its
timeout, or raised.  The translated control flow is exactly that of
`utils.py` lines 12-49: after a completed run the code executes
`if return_code != 0 and show_output: return False, None` and otherwise
`return True, stdout if not show_output else None` (in the `show_output`
branch the captured text is printed, not returned; `show_progress` only
changes how output is streamed, never the returned value).  `TimeoutExpired`
and any other exception are caught and give `(False, None)`. -/

/-- Result of the underlying `subprocess` invocation. -/
inductive ExecOutcome where
  | completed (returnCode : Int) (stdout : String)
  | timedOut
  | raised
  deriving DecidableEq

/-- `utils.run_command`, as a function of the subprocess outcome and the two
display flags.  Returns the `(success, captured-output)` pair. -/
def run_command (outcome : ExecOutcome)
    (show_output show_progress : Bool) : Bool × Option String :=
  match outcome with
  | .timedOut => (false, none)
  | .raised => (false, none)
  | .completed rc out =>
    if rc != 0 && show_output then (false, none)
    else (true, if show_output then none else some out)

/-- Python's `str()` applied to an optional string: `str(None) = "None"`. -/
def pyStr : Option String → String
  | none => "None"
  | some s => s

/-! ## Error classification — `main.py`

`main` (lines 1018-1021) computes four error flags from the captured build
output; `detect_gradle_cache_issue` (lines 599-611) is the keyword scan it
delegates to.  `build_apk` (line 568) uses its own single substring check. -/

/-- `main.py` line 1018. -/
def kotlin_dsl_error (s : String) : Bool :=
  strContains s "Kotlin DSL" || strContains s ".kts"

/-- `main.py` line 1019. -/
def java_gradle_error (s : String) : Bool :=
  strContains s "Unsupported class file major version" ||
  strContains s "incompatible with the Java"

/-- `main.py` line 1020: the NDK-mismatch flag requires both substrings. -/
def ndk_version_error (s : String) : Bool :=
  strContains s "Your project is configured with Android NDK" &&
  strContains s "requires Android NDK"

/-- `main.py` lines 599-611. -/
def detect_gradle_cache_issue (s : String) : Bool :=
  strContains s "Could not read workspace metadata from" ||
  strContains s "metadata.bin" ||
  strContains s "Error resolving plugin [id: \x27dev.flutter.flutter-plugin-loader\x27" ||
  strContains s "Multiple build operations failed"

/-- `build_apk`'s own NDK check, `main.py` line 568. -/
def build_apk_ndk_check (errorOutput : String) : Bool :=
  strContains errorOutput "requires Android NDK"

/-! ## Emulator selection — `emulator.select_emulator` -/

/-- An enumerated AVD record; selection only consults `name`, the remaining
field carries the rest of the per-emulator dictionary. -/
structure Emulator where
  name : String
  info : String
  deriving DecidableEq

/-- Digit-string value: `some n` when the list is a non-empty run of ASCII
digits, else `none`. -/
def digitsVal (l : List Char) : Option Nat :=
  if l.isEmpty then none
  else l.foldl
    (fun acc c =>
      acc.bind fun a => if c.isDigit then some (a * 10 + (c.toNat - 48)) else none)
    (some 0)

/-- Python's `int(s)` on a string (`ValueError` becomes `none`): optional
surrounding whitespace, optional sign, then decimal digits. -/
def pyInt (s : String) : Option Int :=
  let t := ((s.data.dropWhile isPySpace).reverse.dropWhile isPySpace).reverse
  match t with
  | '-' :: ds => (digitsVal ds).map (fun n => -(n : Int))
  | '+' :: ds => (digitsVal ds).map (fun n => (n : Int))
  | ds => (digitsVal ds).map (fun n => (n : Int))

/-- The 1-based index lookup shared by both branches of `select_emulator`:
`idx = int(choice) - 1; if 0 <= idx < len(emulators): emulators[idx]`. -/
def indexLookup (emulators : List Emulator) (n : Int) : Option Emulator :=
  let idx := n - 1
  if 0 ≤ idx && idx < emulators.length then emulators.get? idx.toNat
  else none

/-- The interactive prompt loop of `select_emulator`: each element of
`inputs` is one line typed by the user; an invalid line re-prompts; running
out of input models the `KeyboardInterrupt` path, returning `None`. -/
def interactive_select (emulators : List Emulator) : List String → Option Emulator
  | [] => none
  | inp :: rest =>
    match pyInt inp with
    | some n =>
      match indexLookup emulators n with
      | some e => some e
      | none => interactive_select emulators rest
    | none => interactive_select emulators rest

/-- `emulator.select_emulator` (lines 237-281).  `argEmulator` is
`args.emulator`; Python truthiness sends an absent or empty selector to the
interactive branch.  With a selector: first an exact name scan, then — only
when no name matched — the 1-based index interpretation, returning `none` on
an out-of-range index or unparsable string. -/
def select_emulator (argEmulator : Option String) (emulators : List Emulator)
    (inputs : List String) : Option Emulator :=
  if emulators.isEmpty then none
  else
    match argEmulator with
    | some sel =>
      if sel.isEmpty then interactive_select emulators inputs
      else
        match emulators.find? (fun e => e.name == sel) with
        | some e => some e
        | none =>
          match pyInt sel with
          | some n => indexLookup emulators n
          | none => none
    | none => interactive_select emulators inputs

/-! ## Emulator boot — `emulator.boot_emulator` (lines 176-235)

The probes and polls are abstracted as observation records.  `namedRunning`
is a ghost field — the ground-truth fact "a process for the named AVD is
running" — never consulted by the translated code, only by specifications;
an environment is coherent when the name-specific `ps aux | grep name` probe
reporting a live process implies the ghost fact. -/

/-- One `run_command(..., show_output=False)` probe result. -/
structure RunRes where
  ok : Bool
  out : Option String
  deriving DecidableEq

/-- Python truthiness of the captured output (`None` and `""` are falsy). -/
def truthyOut : Option String → Bool
  | none => false
  | some s => !s.isEmpty

/-- One iteration of the readiness poll: the `adb devices` listing and the
`adb shell getprop sys.boot_completed` query. -/
structure PollObs where
  adbDevices : RunRes
  bootProp : RunRes
  deriving DecidableEq

/-- Observable environment of one `boot_emulator` call. -/
structure BootEnv where
  namedRunning : Bool
  adbInitial : RunRes
  psInitial : RunRes
  startOk : Bool
  polls : List PollObs
  deriving DecidableEq

/-- Coherence of the ghost field with the name-specific probe: when
`ps aux | grep '{name}' | grep -v grep` finds a process, that AVD really is
running. -/
def BootEnv.coherent (env : BootEnv) : Prop :=
  (env.psInitial.ok && truthyOut env.psInitial.out) = true → env.namedRunning = true

/-- Python `str.strip()`. -/
def pyStrip (s : String) : String :=
  ⟨((s.data.dropWhile isPySpace).reverse.dropWhile isPySpace).reverse⟩

/-- The already-running check, `emulator.py` lines 184-191: any
`emulator-`/`device` pair in the `adb devices` text, or a non-empty
name-specific `ps` grep. -/
def bootIsRunning (env : BootEnv) : Bool :=
  (env.adbInitial.ok && truthyOut env.adbInitial.out &&
     (strContains (pyStr env.adbInitial.out) "emulator-" &&
      strContains (pyStr env.adbInitial.out) "device"))
  || (env.psInitial.ok && truthyOut env.psInitial.out)

/-- One poll iteration is "ready" when the device list shows a device and the
boot-completed property strips to `"1"` (lines 212-226). -/
def pollReady (p : PollObs) : Bool :=
  p.adbDevices.ok && truthyOut p.adbDevices.out &&
  strContains (pyStr p.adbDevices.out) "device" &&
  strContains (pyStr p.adbDevices.out) "emulator" &&
  (p.bootProp.ok && truthyOut p.bootProp.out &&
   (pyStrip (pyStr p.bootProp.out) == "1"))

/-- The wait loop (lines 210-235): return success on the first ready poll,
and also success when the wait budget expires with no poll ready. -/
def bootPollLoop : List PollObs → Bool
  | [] => true
  | p :: rest => if pollReady p then true else bootPollLoop rest

/-- `emulator.boot_emulator`: first component is the returned flag, second
records whether the start command was issued. -/
def boot_emulator (env : BootEnv) : Bool × Bool :=
  if bootIsRunning env then (true, false)
  else if !env.startOk then (false, true)
  else (bootPollLoop env.polls, true)

/-! ## Configuration patchers — regex matchers

The concrete patterns of `build.py` and `plugin_helper.py`, as replacement
matchers for `reSub`/`reSearchG`.  All are anchored matchers: applied at one
position they either fail or consume the match. -/

/-- The canonical NDK version pinned by `plugin_helper.fix_build_gradle_kts`. -/
def targetNdk : List Char := "27.0.12077973".data

/-- Replacement text `ndkVersion "<v>"` (Groovy form). -/
def replNdkGroovy (v : List Char) : List Char :=
  ndkvLit ++ [' ', '"'] ++ v ++ ['"']

/-- Replacement text `ndkVersion = "<v>"` (Kotlin-DSL form). -/
def replNdkKts (v : List Char) : List Char :=
  ndkvLit ++ [' ', '=', ' ', '"'] ++ v ++ ['"']

/-- Matcher for `ndkVersion\s+['"].*?['"]` (`build.py` line 38), paired with
the fixed replacement `ndkVersion "<v>"`. -/
def patUpdateNdk (v : List Char) (l : List Char) : Option (List Char × List Char) :=
  (dropLit ndkvLit l).bind fun r1 =>
  (dropSpaces1 r1).bind fun r2 =>
  match r2 with
  | [] => none
  | c :: r3 =>
    if isQuoteCh c then
      (lazyToQuote r3).map fun qr => (replNdkGroovy v, qr.2)
    else none

/-- Matcher for `(ndkVersion\s*['"]).*?(['"])` (`build.py` line 220): the
replacement re-emits group 1 (the keyword, its whitespace and the opening
quote), the new version, and group 2 (the closing quote). -/
def patDirectNdk (v : List Char) (l : List Char) : Option (List Char × List Char) :=
  (dropLit ndkvLit l).bind fun r1 =>
  let sp := r1.takeWhile isPySpace
  let r2 := r1.dropWhile isPySpace
  match r2 with
  | [] => none
  | c :: r3 =>
    if isQuoteCh c then
      (lazyToQuote r3).map fun qr =>
        (ndkvLit ++ sp ++ [c] ++ v ++ [qr.1], qr.2)
    else none

/-- Search matcher for `ndkVersion\s+['"]([0-9.]+)['"]` (`build.py` line 104):
returns the captured version digits. -/
def patSearchNdkV (l : List Char) : Option (List Char × List Char) :=
  (dropLit ndkvLit l).bind fun r1 =>
  (dropSpaces1 r1).bind fun r2 =>
  match r2 with
  | [] => none
  | c :: r3 =>
    if isQuoteCh c then
      let g := r3.takeWhile isVerCh
      match r3.dropWhile isVerCh with
      | d :: r4 => if isQuoteCh d && !g.isEmpty then some (g, r4) else none
      | [] => none
    else none

/-- Stage `([0-9.]+)["']` of the version pattern: a non-empty greedy run of
version characters closed by a quote. -/
def verQuoteStage (r5 : List Char) : Option (List Char × List Char) :=
  match r5.dropWhile isVerCh with
  | d :: r6 =>
    if isQuoteCh d && !(r5.takeWhile isVerCh).isEmpty then
      some (r5.takeWhile isVerCh, r6)
    else none
  | [] => none

/-- Stage `["']([0-9.]+)["']`: an opening quote followed by the version
run. -/
def quoteStage (r4 : List Char) : Option (List Char × List Char) :=
  match r4 with
  | [] => none
  | c :: r5 => if isQuoteCh c then verQuoteStage r5 else none

/-- The `=?` stage: drop a single leading `=` when present. -/
def eqStep (r2 : List Char) : List Char :=
  match r2 with
  | '=' :: t => t
  | _ => r2

/-- The part of the `ndkVersion\s*=?\s*["']([0-9.]+)["']` matcher after the
`ndkVersion` literal: optional whitespace, optional `=`, optional
whitespace, then the quoted version run. -/
def patKtsTail (r1 : List Char) : Option (List Char × List Char) :=
  quoteStage ((eqStep (r1.dropWhile isPySpace)).dropWhile isPySpace)

/-- Proof infrastructure: what remains of a list after the whitespace and
optional `=` stages of `patKtsTail`, when the input is cut before a
non-space, non-`=` barrier character. -/
def tailSpine (u : List Char) : List Char :=
  (eqStep (u.dropWhile isPySpace)).dropWhile isPySpace

/-- Search matcher for `ndkVersion\s*=?\s*["']([0-9.]+)["']`
(`plugin_helper.py` line 363): returns the captured version digits. -/
def patKtsNdkV (l : List Char) : Option (List Char × List Char) :=
  (dropLit ndkvLit l).bind patKtsTail

/-- Replacement matcher for the same pattern, substituting the canonical
version in Kotlin-DSL or Groovy form (`plugin_helper.py` lines 372-383). -/
def patKtsNdkSub (is_kts : Bool) (l : List Char) : Option (List Char × List Char) :=
  (patKtsNdkV l).map fun gr =>
    ((if is_kts then replNdkKts targetNdk else replNdkGroovy targetNdk), gr.2)

/-- Matcher for `(android\s*\{)` with replacement `\1\n    ndkVersion ...`
(`plugin_helper.py` lines 394-401): the matched text is preserved and the
ndkVersion line is inserted after it. -/
def patAndroidBlock (is_kts : Bool) (l : List Char) : Option (List Char × List Char) :=
  (dropLit "android".data l).bind fun r1 =>
  match r1.dropWhile isPySpace with
  | c :: r2 =>
    if c == obrace then
      some ("android".data ++ r1.takeWhile isPySpace ++ [obrace] ++ ['\n'] ++
            "    ".data ++
            (if is_kts then replNdkKts targetNdk else replNdkGroovy targetNdk), r2)
    else none
  | [] => none

/-- Matcher for `ndk\.dir=.*` with the comment-out replacement of
`build.py` line 231 (`direct_update_ndk_version`, non-local-properties
branch). -/
def patNdkDirComment (repl : List Char) (l : List Char) : Option (List Char × List Char) :=
  (dropLit "ndk.dir=".data l).map fun r1 =>
    (repl, r1.dropWhile (fun c => !(c == '\n')))

/-- Search matcher for `ndk\.dir=(.+?)[\r\n]` (`build.py` line 76): the group
is the lazily-matched non-empty run (`.` excludes only LF) up to the first CR
or LF, which must be present. -/
def patNdkDirLine (l : List Char) : Option (List Char × List Char) :=
  (dropLit "ndk.dir=".data l).bind fun r1 =>
  match r1 with
  | [] => none
  | c :: r2 =>
    if c == '\n' then none
    else
      let g := c :: r2.takeWhile (fun d => !(d == '\n' || d == '\r'))
      match r2.dropWhile (fun d => !(d == '\n' || d == '\r')) with
      | _ :: r3 => some (g, r3)
      | [] => none

/-- Search matcher for `/ndk/([0-9.]+)` (`build.py` line 79). -/
def patNdkPathV (l : List Char) : Option (List Char × List Char) :=
  (dropLit "/ndk/".data l).bind fun r1 =>
  let g := r1.takeWhile isVerCh
  if g.isEmpty then none else some (g, r1.dropWhile isVerCh)

/-- Search matcher for `requires Android NDK ([0-9.]+)`
(`main.py` line 456). -/
def patRequiresNdk (l : List Char) : Option (List Char × List Char) :=
  (dropLit "requires Android NDK ".data l).bind fun r1 =>
  let g := r1.takeWhile isVerCh
  if g.isEmpty then none else some (g, r1.dropWhile isVerCh)

/-- Matcher for `ndkVersion\s*=\s*['"]([^'"]+)['"]` with replacement
`ndkVersion = "<v>"` (`main.py` line 479, `fix_ndk_version` Kotlin-DSL
branch). -/
def patFixNdkAssign (v : List Char) (l : List Char) : Option (List Char × List Char) :=
  (dropLit ndkvLit l).bind fun r1 =>
  match r1.dropWhile isPySpace with
  | '=' :: r2 =>
    match r2.dropWhile isPySpace with
    | c :: r3 =>
      if isQuoteCh c then
        let g := r3.takeWhile (fun d => !isQuoteCh d)
        match r3.dropWhile (fun d => !isQuoteCh d) with
        | _ :: r4 => if !g.isEmpty then some (replNdkKts v, r4) else none
        | [] => none
      else none
    | [] => none
  | _ => none

/-- Matcher for `ndkVersion\s*['"]([^'"]+)['"]` with replacement
`ndkVersion "<v>"` (`main.py` line 499, `fix_ndk_version` Groovy branch). -/
def patFixNdkPlain (v : List Char) (l : List Char) : Option (List Char × List Char) :=
  (dropLit ndkvLit l).bind fun r1 =>
  match r1.dropWhile isPySpace with
  | c :: r2 =>
    if isQuoteCh c then
      let g := r2.takeWhile (fun d => !isQuoteCh d)
      match r2.dropWhile (fun d => !isQuoteCh d) with
      | _ :: r3 => if !g.isEmpty then some (replNdkGroovy v, r3) else none
      | [] => none
    else none
  | [] => none

/-- Matcher for `android\s*\{` with the fixed (non-group-preserving)
replacement `android {\n    ndkVersion [= ]"<v>"` used by `fix_ndk_version`
(`main.py` lines 481 and 502). -/
def patAndroidFixed (assign : Bool) (v : List Char) (l : List Char) :
    Option (List Char × List Char) :=
  (dropLit "android".data l).bind fun r1 =>
  match r1.dropWhile isPySpace with
  | c :: r2 =>
    if c == obrace then
      some ("android ".data ++ [obrace] ++ '\n' :: "    ".data ++
            (if assign then replNdkKts v else replNdkGroovy v), r2)
    else none
  | [] => none

/-- Matcher for `(android\s*\{)` with group-preserving replacement
`\1\n    ndkVersion "<v>"` (`build.py` lines 261-265). -/
def patAndroidGroupV (v : List Char) (l : List Char) : Option (List Char × List Char) :=
  (dropLit "android".data l).bind fun r1 =>
  let sp := r1.takeWhile isPySpace
  match r1.dropWhile isPySpace with
  | c :: r2 =>
    if c == obrace then
      some ("android".data ++ sp ++ [obrace] ++ '\n' :: "    ".data ++
            replNdkGroovy v, r2)
    else none
  | [] => none

/-! ## Filesystem model

An association list from paths to file contents; `fsSet` overwrites or
creates. -/

/-- File system: paths with their text contents. -/
abbrev FS : Type := List (String × String)

/-- Read a file. -/
def fsGet : FS → String → Option String
  | [], _ => none
  | e :: rest, p => if e.1 == p then some e.2 else fsGet rest p

/-- Write (create or overwrite) a file. -/
def fsSet (fs : FS) (p : String) (c : String) : FS :=
  match fs with
  | [] => [(p, c)]
  | e :: rest => if e.1 == p then (p, c) :: rest else e :: fsSet rest p c

/-- Path of the app-level Groovy build script. -/
def appGradlePath : String := "android/app/build.gradle"

/-- Path of the project-level Groovy build script. -/
def projGradlePath : String := "android/build.gradle"

/-- Path of the app-level Kotlin-DSL build script. -/
def ktsPath : String := "android/app/build.gradle.kts"

/-- Path of the SDK-location properties file. -/
def localPropsPath : String := "android/local.properties"

/-! ## `build.update_gradle_ndk_version` (lines 9-54) -/

/-- Per-file content step of `update_gradle_ndk_version`: when the text
mentions `ndkVersion`, substitute every `ndkVersion\s+['"].*?['"]` match by
`ndkVersion "<v>"`; the flag says whether the file text changed (and was
therefore written back). -/
def update_gradle_ndk_content (v : List Char) (content : List Char) :
    List Char × Bool :=
  if containsSub ndkvLit content then
    let n := reSub (patUpdateNdk v) content
    if n ≠ content then (n, true) else (content, false)
  else (content, false)

/-- One file of the `update_gradle_ndk_version` loop: read the script if it
exists, apply the content step, and write back only when it changed. -/
def updateGradleStep (v : List Char) (acc : FS × Bool) (p : String) : FS × Bool :=
  match fsGet acc.1 p with
  | none => acc
  | some content =>
    let r := update_gradle_ndk_content v content.data
    if r.2 then (fsSet acc.1 p ⟨r.1⟩, true) else acc

/-- `build.update_gradle_ndk_version` over the filesystem: processes the app
and project build scripts in order; returns the accumulated `updated` flag.
No backup file of any kind is written by this function. -/
def update_gradle_ndk_version (v : List Char) (fs : FS) : FS × Bool :=
  List.foldl (updateGradleStep v) (fs, false) [appGradlePath, projGradlePath]

/-! ## `plugin_helper.fix_build_gradle_kts` (lines 330-415) -/

/-- Content step of `fix_build_gradle_kts`: search for a version occurrence;
when found with a non-canonical version, substitute all occurrences by the
canonical `27.0.12077973`; when absent, insert `ndkVersion` after each
`android {` block head, and report failure when no block head exists. -/
def fixKtsContent (is_kts : Bool) (content : List Char) : List Char × Bool :=
  match reSearchG patKtsNdkV content with
  | some (g, _) =>
    if g ≠ targetNdk then (reSub (patKtsNdkSub is_kts) content, true)
    else (content, true)
  | none =>
    let n := reSub (patAndroidBlock is_kts) content
    if n = content then (content, false) else (n, true)

/-- `plugin_helper.fix_build_gradle_kts` over the filesystem: pick the
Kotlin-DSL script when present, else the Groovy script; always write the
`.bak` backup of the pre-patch content first, then apply the content step
and write the file back when it changed. -/
def fix_build_gradle_kts (fs : FS) : FS × Bool :=
  let sel : Option (String × Bool × String) :=
    match fsGet fs ktsPath with
    | some c => some (ktsPath, true, c)
    | none =>
      match fsGet fs appGradlePath with
      | some c => some (appGradlePath, false, c)
      | none => none
  match sel with
  | none => (fs, false)
  | some (p, is_kts, content) =>
    let fs1 := fsSet fs (p ++ ".bak") content
    let r := fixKtsContent is_kts content.data
    ((if r.1 = content.data then fs1 else fsSet fs1 p ⟨r.1⟩), r.2)

/-! ## `main.fix_ndk_version` (lines 449-535) -/

/-- `main.fix_ndk_version` over the filesystem: extract the required NDK
version from the build error text (default `27.0.12077973`), rewrite or
insert the version in the Kotlin-DSL script when present, else in the Groovy
script; fail when neither exists.  No backup file is written; the
cache-directory removals touch only derived build caches and are outside
this file universe. -/
def fix_ndk_version (errorOutput : String) (fs : FS) : FS × Bool :=
  let v :=
    match reSearchG patRequiresNdk errorOutput.data with
    | some (g, _) => g
    | none => targetNdk
  match fsGet fs ktsPath with
  | some c =>
    let n :=
      if containsSub ndkvLit c.data then reSub (patFixNdkAssign v) c.data
      else reSub (patAndroidFixed true v) c.data
    (fsSet fs ktsPath ⟨n⟩, true)
  | none =>
    match fsGet fs appGradlePath with
    | some c =>
      let n :=
        if containsSub ndkvLit c.data then reSub (patFixNdkPlain v) c.data
        else reSub (patAndroidFixed false v) c.data
      (fsSet fs appGradlePath ⟨n⟩, true)
    | none => (fs, false)

/-! ## NDK reconciliation — `build.check_and_fix_ndk_versions` and
`build.direct_update_ndk_version` (lines 56-273)

The file universe is restricted to the two files the reconciliation claim
concerns: `android/local.properties` and `android/app/build.gradle` (the
directory walk visits exactly these when they are the only candidates; the
app script is processed first by the explicit reordering at lines 93-97). -/

/-- The two files involved in NDK reconciliation. -/
structure NdkState where
  localProps : Option (List Char)
  appGradle : Option (List Char)
  deriving DecidableEq

/-- Comment-out replacement for the `local.properties` pass
(`build.py` line 176). -/
def localCommentRepl : List Char :=
  "# ndk.dir=disabled_by_script (ビルドエラー修正のため、代わりにndkVersionを使用)".data

/-- Comment-out replacement for the other-properties pass
(`build.py` line 232). -/
def otherCommentRepl : List Char :=
  "# ndk.dir=disabled_by_script (ビルドエラー修正のため無効化)".data

/-- Extract the NDK version recorded in an `ndk.dir=` line: leftmost
`ndk\.dir=(.+?)[\r\n]` match, strip the captured path, then leftmost
`/ndk/([0-9.]+)` match (`build.py` lines 76-81 and 156-165). -/
def ndkDirVersionOf (content : List Char) : Option (List Char) :=
  match reSearchG patNdkDirLine content with
  | some (pathTxt, _) =>
    let stripped :=
      ((pathTxt.dropWhile isPySpace).reverse.dropWhile isPySpace).reverse
    match reSearchG patNdkPathV stripped with
    | some (g, _) => some g
    | none => none
  | none => none

/-- Literal `android {` (single space), as tested by
`'android {' in content` at `build.py` line 258. -/
def androidBraceLit : List Char := "android ".data ++ [obrace]

/-- `build.direct_update_ndk_version` over the two-file state: the
`local.properties` pass (re-extract and prefer its version, comment out the
`ndk.dir` line), the gradle-file pass (substitute `ndkVersion`, comment out
any `ndk.dir`), and the add-if-missing pass for the app script.  Returns the
new state and the list of modified paths. -/
def direct_update_ndk_version (v0 : List Char) (st : NdkState) :
    NdkState × List String :=
  let step1 : List Char × Option (List Char) × Bool :=
    match st.localProps with
    | none => (v0, none, false)
    | some content =>
      if containsSub "ndk.dir=".data content then
        let v1 :=
          match ndkDirVersionOf content with
          | some dv => if dv ≠ v0 then dv else v0
          | none => v0
        let n := reSub (patNdkDirComment localCommentRepl) content
        if n ≠ content then (v1, some n, true) else (v1, some content, false)
      else (v0, some content, false)
  let v := step1.1
  let lp' := step1.2.1
  let lpMod := step1.2.2
  let step2 : Option (List Char) × Bool :=
    match st.appGradle with
    | none => (none, false)
    | some content =>
      let s1 : List Char × Bool :=
        if containsSub ndkvLit content then
          let t := reSub (patDirectNdk v) content
          (t, t ≠ content)
        else (content, false)
      let s2 : List Char × Bool :=
        if containsSub "ndk.dir".data s1.1 then
          let t := reSub (patNdkDirComment otherCommentRepl) s1.1
          (t, t ≠ s1.1)
        else (s1.1, false)
      if s1.2 || s2.2 then (some s2.1, true) else (some content, false)
  let ag' := step2.1
  let agMod := step2.2
  let step3 : Option (List Char) × Bool :=
    if !agMod then
      match ag' with
      | some content =>
        if containsSub androidBraceLit content && !containsSub ndkvLit content then
          (some (reSub (patAndroidGroupV v) content), true)
        else (ag', false)
      | none => (ag', false)
    else (ag', false)
  let mods :=
    (if lpMod then [localPropsPath] else []) ++
    (if agMod then [appGradlePath] else []) ++
    (if step3.2 then [appGradlePath] else [])
  (⟨lp', step3.1⟩, mods)

/-- `build.check_and_fix_ndk_versions` over the two-file state: read the
`ndk.dir` version and the first gradle `ndkVersion`; on a mismatch (or a
missing gradle setting) run `direct_update_ndk_version` with the `ndk.dir`
version; report whether any file was modified. -/
def check_and_fix_ndk_versions (st : NdkState) : NdkState × Bool :=
  let ndkDirV := st.localProps.bind ndkDirVersionOf
  let gradleV :=
    st.appGradle.bind fun c => (reSearchG patSearchNdkV c).map (fun r => r.1)
  match ndkDirV, gradleV with
  | some dv, some gv =>
    if dv ≠ gv then
      let r := direct_update_ndk_version dv st
      (r.1, !r.2.isEmpty)
    else (st, false)
  | some dv, none =>
    let r := direct_update_ndk_version dv st
    (r.1, !r.2.isEmpty)
  | _, _ => (st, false)

/-! ## `main.build_apk` (lines 537-597) and the repair cascade
(`main.main`, lines 986-1174) -/

/-- Environment of one `build_apk` run: the outcome of each successive
`flutter build apk` invocation, the result of each `fix_ndk_version` call,
and whether APK files are found after each successful build. -/
structure BuildApkEnv where
  buildOutcomes : List ExecOutcome
  fixResults : List Bool
  apkFound : List Bool

/-- `main.build_apk`, fuelled on the recursion at line 572
(`return build_apk(output_dir, build_type, verbose)`).  The build command
runs through `run_command(build_cmd, "APKビルド", show_output=verbose)`; on
failure the error text is `str(result[1])` and the NDK repair-and-retry
branch is guarded by `"requires Android NDK" in str(error_output)` and the
`fix_ndk_version` result. -/
def build_apk_rec (verbose : Bool) : Nat → BuildApkEnv → Option Bool
  | 0, _ => none
  | fuel + 1, env =>
    let result := run_command (env.buildOutcomes.headD .raised) verbose false
    if !result.1 then
      let error_output := pyStr result.2
      if strContains error_output "requires Android NDK" then
        if env.fixResults.headD false then
          build_apk_rec verbose fuel
            ⟨env.buildOutcomes.tail, env.fixResults.tail, env.apkFound.tail⟩
        else some false
      else some false
    else some (env.apkFound.headD false)

/-- Environment of one repair-cascade run: the outcome of each successive
`build_and_run_android_emulator` call, the `java -version` probe text, the
on-disk Kotlin-DSL file checks, the vibration-plugin fix result, and whether
`flutter create` regenerated the android directory in the last-resort step. -/
structure CascadeEnv where
  build : Nat → Bool
  javaInfo : String
  settingsKtsExists : Bool
  appKtsExists : Bool
  vibrationFixed : Bool
  recreateOk : Bool

/-- The repair cascade of `main.main` after a failed first build
(lines 1002-1174): returns the exit code, the accumulated `tried_fixes`
labels, and the number of `build_and_run_android_emulator` invocations.
`build_and_run_android_emulator` returns a bare boolean (`build.py`
line 275), so the tuple test at line 1005 fails and `build_error_output`
is always the empty string. -/
def main_cascade (env : CascadeEnv) : Nat × List String × Nat :=
  if env.build 0 then (0, [], 1)
  else
    let beo := ""
    let ndkE := ndk_version_error beo
    let kotlinE := kotlin_dsl_error beo
    let javaE := java_gradle_error beo
    let cacheE := detect_gradle_cache_issue beo
    let t0 : List String := if ndkE then ["NDKバージョン修正"] else []
    let n0 : Nat := if ndkE then 2 else 1
    if ndkE && env.build 1 then (0, t0, n0)
    else
      let kCond := env.settingsKtsExists || env.appKtsExists || kotlinE
      let t1 := t0 ++ (if kCond then ["Kotlin DSL修正"] else [])
      let n1 := n0 + (if kCond then 1 else 0)
      if kCond && env.build n0 then (0, t1, n1)
      else
        let jCond := javaE ||
          strContains env.javaInfo "Unsupported class file major version" ||
          strContains env.javaInfo "incompatible with the Java"
        let t2 := t1 ++ (if jCond then ["Java/Gradle互換性修正"] else [])
        let n2 := n1 + (if jCond then 1 else 0)
        if jCond && env.build n1 then (0, t2, n2)
        else
          let pCond := env.vibrationFixed
          let t3 := t2 ++ (if pCond then ["Vibrationプラグイン修正"] else [])
          let n3 := n2 + (if pCond then 1 else 0)
          if pCond && env.build n2 then (0, t3, n3)
          else
            let cCond := cacheE
            let t4 := t3 ++ (if cCond then ["Gradleキャッシュ修正"] else [])
            let n4 := n3 + (if cCond then 1 else 0)
            if cCond && env.build n3 then (0, t4, n4)
            else
              let rCond := !t4.isEmpty && env.recreateOk
              let n5 := n4 + (if rCond then 1 else 0)
              if rCond && env.build n4 then (0, t4, n5)
              else (1, t4, n5)

/-! ## `--list` run — `main.main` lines 912-975 -/

/-- Environment of a `--list` invocation: tool probe results and the
enumerated emulators. -/
structure ListEnv where
  flutterOk : Bool
  sdkOk : Bool
  projectOk : Bool
  isWindows : Bool
  sdkFound : Bool
  emulators : List Emulator

/-- Coarse filesystem state for frame reasoning: file contents plus the
existence of the `output/android_emulator` directory and of the
`~/android-sdk` convenience symlink. -/
structure SysFS where
  files : List (String × String)
  outputDirExists : Bool
  homeSdkLinkExists : Bool
  deriving DecidableEq

/-- `env_check.setup_android_paths` filesystem effect (lines 81-89): on a
non-Windows host with an SDK found, create the `~/android-sdk` symlink when
it does not already exist; everything else mutates only the process
environment. -/
def setup_android_paths_fs (env : ListEnv) (fs : SysFS) : SysFS :=
  if env.sdkFound && !fs.homeSdkLinkExists && !env.isWindows then
    { fs with homeSdkLinkExists := true }
  else fs

/-- `utils.prepare_output_directory` (lines 60-63):
`os.makedirs("output/android_emulator", exist_ok=True)`. -/
def prepare_output_directory_fs (fs : SysFS) : SysFS :=
  { fs with outputDirExists := true }

/-- The `--list` path of `main.main`: toolchain checks (the SDK check calls
`setup_android_paths` on success), output-directory creation, emulator
enumeration (which calls `setup_android_paths` again), then
`return 0 if emulators else 1`. -/
def main_list_run (env : ListEnv) (fs : SysFS) : Nat × SysFS :=
  if !env.flutterOk then (1, fs)
  else if !env.sdkOk then (1, fs)
  else
    let fs1 := setup_android_paths_fs env fs
    if !env.projectOk then (1, fs1)
    else
      let fs2 := prepare_output_directory_fs fs1
      let fs3 := setup_android_paths_fs env fs2
      if env.emulators.isEmpty then (1, fs3) else (0, fs3)

/-! ## Concrete inputs used by counterexamples and witnesses -/

/-- A gradle text whose quoted NDK value runs into a newline; the lazy
`.*?['"]` of `update_gradle_ndk_version`'s pattern then merges the text with
the replacement inserted further right, so a second substitution pass
rewrites the file again. -/
def gradleNewlineContent : List Char :=
  ("ndkVersion \"abc ndkVersion\n\"x\"").data

/-- An ordinary single-line gradle script. -/
def gradleSimpleContent : List Char :=
  ("android " ++ "\x7b" ++ "\n    ndkVersion \"1.0\"\n" ++ "\x7d" ++ "\n").data

/-- The claim's properties file: `ndk.dir=/x/ndk/23.1.7779620`. -/
def c6PropsIn : List Char := ("ndk.dir=/x/ndk/23.1.7779620\n").data

/-- The claim's build script: `ndkVersion "21.4.7075529"`. -/
def c6GradleIn : List Char :=
  ("android " ++ "\x7b" ++ "\n    ndkVersion \"21.4.7075529\"\n" ++ "\x7d" ++ "\n").data

/-- The two-file state of the reconciliation scenario. -/
def c6State : NdkState := ⟨some c6PropsIn, some c6GradleIn⟩

/-- Boot environment in which `adb devices` shows some emulator device but
the name-specific `ps` grep comes back empty and the named AVD is in fact
not running. -/
def bootEnvOther : BootEnv :=
  ⟨false,
   ⟨true, some "List of devices attached\nemulator-5554\tdevice"⟩,
   ⟨true, some ""⟩,
   true, []⟩

/-! # Theorems -/

/-! ## String-infrastructure lemmas -/

theorem chListPre_iff (n h : List Char) : chListPre n h = true ↔ n <+: h := by
  induction n generalizing h with
  | nil => simp [chListPre]
  | cons c cs ih =>
    cases h with
    | nil => simp [chListPre]
    | cons d ds =>
      simp [chListPre, List.cons_prefix_cons, ih, Bool.and_eq_true, beq_iff_eq]

theorem containsSub_iff (n h : List Char) : containsSub n h = true ↔ n <:+: h := by
  induction h with
  | nil =>
    simp [containsSub, chListPre_iff]
  | cons d ds ih =>
    simp [containsSub, chListPre_iff, ih, Bool.or_eq_true, List.infix_cons_iff]

theorem strContains_iff (hay needle : String) :
    strContains hay needle = true ↔ needle.data <:+: hay.data :=
  containsSub_iff _ _

theorem strContains_mono (s a b : String) (hab : a.data <:+: b.data)
    (h : strContains s b = true) : strContains s a = true := by
  rw [strContains_iff] at h ⊢
  exact hab.trans h

/-! ## Command-runner lemmas -/

theorem run_command_fail_none (o : ExecOutcome) (so sp : Bool)
    (h : (run_command o so sp).1 = false) : (run_command o so sp).2 = none := by
  cases o with
  | timedOut => rfl
  | raised => rfl
  | completed rc out =>
    by_cases hc : ((rc != 0) && so) = true
    · simp [run_command, hc]
    · simp [run_command, hc] at h

/-! ## Filesystem lemmas -/

theorem fsGet_fsSet (fs : FS) (p q c : String) :
    fsGet (fsSet fs p c) q = if q = p then some c else fsGet fs q := by
  induction fs with
  | nil =>
    by_cases h : q = p
    · subst h; simp [fsSet, fsGet]
    · have hb : (p == q) = false := by
        simp [beq_iff_eq]
        intro hh
        exact h hh.symm
      simp [fsSet, fsGet, hb, h]
  | cons e rest ih =>
    by_cases he : e.1 = p
    · have heb : (e.1 == p) = true := by simpa [beq_iff_eq] using he
      by_cases h : q = p
      · subst h
        simp [fsSet, fsGet, heb]
      · have hpq : (p == q) = false := by
          simp [beq_iff_eq]
          intro hh
          exact h hh.symm
        have heq : (e.1 == q) = false := by rw [he]; exact hpq
        simp [fsSet, fsGet, heb, hpq, heq, h]
    · have heb : (e.1 == p) = false := by simpa [beq_iff_eq] using he
      by_cases hq : e.1 = q
      · have hqb : (e.1 == q) = true := by simpa [beq_iff_eq] using hq
        have hqp : ¬q = p := fun hh => he (hq.trans hh)
        simp [fsSet, fsGet, heb, hqb, hqp]
      · have hqb : (e.1 == q) = false := by simpa [beq_iff_eq] using hq
        simp [fsSet, fsGet, heb, hqb, ih]

/-! ## Boot-loop lemma -/

theorem bootPollLoop_eq_true (l : List PollObs) : bootPollLoop l = true := by
  induction l with
  | nil => rfl
  | cons p rest ih =>
    rw [bootPollLoop]
    split
    · rfl
    · exact ih

/-! ## Claim C2 — command runner failure semantics -/

/-- Claim C2, counterexample: with output display disabled, a command that
exits with code 1 is reported as a success together with its captured
output, contradicting "if the command exits with a non-zero code the
function returns a failure flag". -/
theorem C2_counterexample :
    run_command (ExecOutcome.completed 1 "boom") false false = (true, some "boom") := by
  decide

/-- Claim C2, amended: when `show_output` is true a non-zero exit returns
`(False, None)` without raising; a timeout or exception returns
`(False, None)` in every mode; but when `show_output` is false the function
returns `(True, captured output)` regardless of the exit code. -/
theorem C2_run_command_amended :
    (∀ (rc : Int) (out : String) (sp : Bool), rc ≠ 0 →
        run_command (.completed rc out) true sp = (false, none)) ∧
    (∀ (so sp : Bool), run_command .timedOut so sp = (false, none) ∧
        run_command .raised so sp = (false, none)) ∧
    (∀ (rc : Int) (out : String) (sp : Bool),
        run_command (.completed rc out) false sp = (true, some out)) := by
  refine ⟨?_, ?_, ?_⟩
  · intro rc out sp h
    have hb : (rc != 0) = true := by simpa [bne_iff_ne] using h
    simp [run_command, hb]
  · intro so sp
    exact ⟨rfl, rfl⟩
  · intro rc out sp
    simp [run_command]

/-- Witness for the amended C2 theorem at concrete inputs. -/
theorem C2_run_command_amended_witness :
    run_command (ExecOutcome.completed 2 "x") true false = (false, none) ∧
    run_command ExecOutcome.timedOut true true = (false, none) ∧
    run_command (ExecOutcome.completed 2 "x") false false = (true, some "x") :=
  ⟨C2_run_command_amended.1 2 "x" false (by decide),
   (C2_run_command_amended.2.1 true true).1,
   C2_run_command_amended.2.2 2 "x" false⟩

/-! ## Claim C7 — index selection -/

/-- Claim C7: on a three-element emulator list in which no name equals the
selector, selector "2" returns the item at 1-based position 2, and selector
"5" returns `None` without raising. -/
theorem C7_index_selection (es : List Emulator) (inputs : List String)
    (h3 : es.length = 3)
    (h2 : ∀ e ∈ es, e.name ≠ "2") (h5 : ∀ e ∈ es, e.name ≠ "5") :
    select_emulator (some "2") es inputs = es.get? 1 ∧
    select_emulator (some "5") es inputs = none := by
  have hne : es.isEmpty = false := by
    cases es
    · simp at h3
    · rfl
  have hf2 : es.find? (fun e => e.name == "2") = none := by
    rw [List.find?_eq_none]
    intro x hx
    simpa using h2 x hx
  have hf5 : es.find? (fun e => e.name == "5") = none := by
    rw [List.find?_eq_none]
    intro x hx
    simpa using h5 x hx
  have hp2 : pyInt "2" = some 2 := by decide
  have hp5 : pyInt "5" = some 5 := by decide
  have hse2 : ("2" : String).isEmpty = false := rfl
  have hse5 : ("5" : String).isEmpty = false := rfl
  constructor
  · simp [select_emulator, hne, hse2, hf2, hp2, indexLookup, h3]
  · simp [select_emulator, hne, hse5, hf5, hp5, indexLookup, h3]

/-- Witness for C7 on a concrete three-element list. -/
theorem C7_index_selection_witness :
    select_emulator (some "2")
      [⟨"alpha", ""⟩, ⟨"beta", ""⟩, ⟨"gamma", ""⟩] [] = some ⟨"beta", ""⟩ ∧
    select_emulator (some "5")
      [⟨"alpha", ""⟩, ⟨"beta", ""⟩, ⟨"gamma", ""⟩] [] = none := by
  have h := C7_index_selection [⟨"alpha", ""⟩, ⟨"beta", ""⟩, ⟨"gamma", ""⟩] []
    (by decide) (by decide) (by decide)
  exact ⟨by rw [h.1]; rfl, h.2⟩

/-! ## Claim C10 — name match precedence -/

/-- Claim C10: an exact name match wins over the index interpretation; the
selector is parsed as a 1-based index only when no name matches. -/
theorem C10_name_precedence (es : List Emulator) (sel : String)
    (inputs : List String) (hne : sel.isEmpty = false) :
    (∀ e, es.find? (fun x => x.name == sel) = some e →
        select_emulator (some sel) es inputs = some e) ∧
    (es.find? (fun x => x.name == sel) = none →
        ∀ n, pyInt sel = some n →
        select_emulator (some sel) es inputs = indexLookup es n) := by
  cases es with
  | nil =>
    constructor
    · intro e h
      simp [List.find?] at h
    · intro h n hn
      have h1 : select_emulator (some sel) ([] : List Emulator) inputs = none := rfl
      have h2 : indexLookup ([] : List Emulator) n = none := by
        simp [indexLookup]
      rw [h1, h2]
  | cons a rest =>
    constructor
    · intro e h
      simp [select_emulator, hne, h]
    · intro h n hn
      simp [select_emulator, hne, h, hn]

/-- Witness for C10: the name "3" matches the second item, which is returned
even though "3" also parses as the valid index of the third item; and with
no name match the index path is taken. -/
theorem C10_name_precedence_witness :
    select_emulator (some "3")
      [⟨"x", ""⟩, ⟨"3", ""⟩, ⟨"y", ""⟩] [] = some ⟨"3", ""⟩ ∧
    select_emulator (some "2")
      [⟨"x", ""⟩, ⟨"3", ""⟩, ⟨"y", ""⟩] [] =
      indexLookup [⟨"x", ""⟩, ⟨"3", ""⟩, ⟨"y", ""⟩] 2 :=
  ⟨(C10_name_precedence [⟨"x", ""⟩, ⟨"3", ""⟩, ⟨"y", ""⟩] "3" [] (by decide)).1
      ⟨"3", ""⟩ (by decide),
   (C10_name_precedence [⟨"x", ""⟩, ⟨"3", ""⟩, ⟨"y", ""⟩] "2" [] (by decide)).2
      (by decide) 2 (by decide)⟩

/-! ## Claim C8 — emulator boot -/

/-- Claim C8, counterexample: in a coherent environment where the named AVD
is not running but `adb devices` shows some other emulator device,
`boot_emulator` still returns success immediately without issuing the start
command — so "returns success immediately ... exactly when the named device
is already running" fails. -/
theorem C8_counterexample :
    boot_emulator bootEnvOther = (true, false) ∧
    bootEnvOther.namedRunning = false ∧ bootEnvOther.coherent := by
  refine ⟨by decide, by decide, ?_⟩
  intro h
  exact absurd h (by decide)

/-- Claim C8, amended: the start command is skipped exactly when the running
check passes (any emulator in `adb devices`, or a non-empty name grep — not
only the named device); a passing check gives immediate success; a positive
name-specific probe in a coherent environment implies the named device runs
and boot returns immediate success; otherwise the emulator is started and
the call succeeds whenever the start command does, including when the wait
budget expires with no poll ready; it fails only when the start command
fails. -/
theorem C8_boot_amended (env : BootEnv) :
    ((boot_emulator env).2 = false ↔ bootIsRunning env = true) ∧
    (bootIsRunning env = true → boot_emulator env = (true, false)) ∧
    (env.coherent → (env.psInitial.ok && truthyOut env.psInitial.out) = true →
        env.namedRunning = true ∧ boot_emulator env = (true, false)) ∧
    (bootIsRunning env = false → env.startOk = true →
        boot_emulator env = (true, true)) ∧
    (bootIsRunning env = false → env.startOk = false →
        boot_emulator env = (false, true)) := by
  refine ⟨?_, ?_, ?_, ?_, ?_⟩
  · by_cases hr : bootIsRunning env = true
    · simp [boot_emulator, hr]
    · simp only [Bool.not_eq_true] at hr
      by_cases hs : env.startOk = true <;>
        simp [boot_emulator, hr, hs, bootPollLoop_eq_true]
  · intro hr
    simp [boot_emulator, hr]
  · intro hc hp
    have hn := hc hp
    have hr : bootIsRunning env = true := by
      simp [bootIsRunning, hp]
    exact ⟨hn, by simp [boot_emulator, hr]⟩
  · intro hr hs
    simp [boot_emulator, hr, hs, bootPollLoop_eq_true]
  · intro hr hs
    simp [boot_emulator, hr, hs]

/-- Witness for the amended C8 theorem. -/
theorem C8_boot_amended_witness :
    boot_emulator ⟨true, ⟨true, some "emulator-5554\tdevice"⟩,
        ⟨true, some "qemu"⟩, true, []⟩ = (true, false) ∧
    boot_emulator ⟨false, ⟨true, some ""⟩, ⟨true, some ""⟩, true, []⟩ =
      (true, true) ∧
    boot_emulator ⟨false, ⟨true, some ""⟩, ⟨true, some ""⟩, false, []⟩ =
      (false, true) :=
  ⟨(C8_boot_amended _).2.1 (by decide),
   (C8_boot_amended _).2.2.2.1 (by decide) (by decide),
   (C8_boot_amended _).2.2.2.2 (by decide) (by decide)⟩

/-! ## Claim C9 — --list with zero emulators -/

/-- Claim C9, counterexample: the `--list` run with zero emulators returns
exit code 1 but does mutate the filesystem — the output directory
`output/android_emulator` (and, here, the `~/android-sdk` symlink) comes
into existence during the run. -/
theorem C9_counterexample :
    (main_list_run ⟨true, true, true, false, true, []⟩ ⟨[], false, false⟩).1 = 1 ∧
    (main_list_run ⟨true, true, true, false, true, []⟩ ⟨[], false, false⟩).2 ≠
      (⟨[], false, false⟩ : SysFS) := by
  decide

/-- Claim C9, amended: with the toolchain checks passing and zero emulators
the run exits with code 1 and modifies no file contents (no configuration
or backup file is written), but it creates the `output/android_emulator`
directory, and may create the `~/android-sdk` symlink, when missing. -/
theorem C9_list_run_amended (env : ListEnv) (fs : SysFS)
    (hf : env.flutterOk = true) (hs : env.sdkOk = true)
    (hp : env.projectOk = true) (he : env.emulators = []) :
    (main_list_run env fs).1 = 1 ∧
    ((main_list_run env fs).2).files = fs.files ∧
    ((main_list_run env fs).2).outputDirExists = true := by
  refine ⟨?_, ?_, ?_⟩ <;>
    simp only [main_list_run, hf, hs, hp, he, Bool.not_true, Bool.false_eq_true,
      if_false, List.isEmpty_nil, if_true, setup_android_paths_fs,
      prepare_output_directory_fs] <;>
    split_ifs <;> rfl

/-- Witness for the amended C9 theorem. -/
theorem C9_list_run_amended_witness :
    (main_list_run ⟨true, true, true, false, true, []⟩
        ⟨[("android/app/build.gradle", "x")], false, false⟩).1 = 1 ∧
    ((main_list_run ⟨true, true, true, false, true, []⟩
        ⟨[("android/app/build.gradle", "x")], false, false⟩).2).files =
      [("android/app/build.gradle", "x")] :=
  ⟨(C9_list_run_amended _ _ rfl rfl rfl rfl).1,
   (C9_list_run_amended _ _ rfl rfl rfl rfl).2.1⟩

/-! ## Claim C1 — NDK error classification -/

/-- Claim C1, counterexample: a captured build output consisting of
`requires Android NDK 27.0.12077973` does not make the repair cascade's
classifier (`main.py` line 1020) select the NDK-mismatch repair, because
that flag also requires the substring
`Your project is configured with Android NDK`. -/
theorem C1_counterexample :
    strContains "requires Android NDK 27.0.12077973"
      "requires Android NDK 27.0.12077973" = true ∧
    ndk_version_error "requires Android NDK 27.0.12077973" = false := by
  decide

/-- Claim C1, amended: `build_apk`'s classifier selects the NDK repair for
every output containing `requires Android NDK 27.0.12077973`; the cascade's
classifier selects it only when `Your project is configured with Android
NDK` is also present; and no other repair is selected by the NDK message
itself (each other flag requires its own keywords). -/
theorem C1_classifier_amended (s : String) :
    (strContains s "requires Android NDK 27.0.12077973" = true →
        build_apk_ndk_check s = true) ∧
    (strContains s "Your project is configured with Android NDK" = true →
        strContains s "requires Android NDK" = true →
        ndk_version_error s = true) ∧
    (strContains s "Kotlin DSL" = false → strContains s ".kts" = false →
        kotlin_dsl_error s = false) ∧
    (strContains s "Unsupported class file major version" = false →
        strContains s "incompatible with the Java" = false →
        java_gradle_error s = false) ∧
    (strContains s "Could not read workspace metadata from" = false →
        strContains s "metadata.bin" = false →
        strContains s
          "Error resolving plugin [id: \x27dev.flutter.flutter-plugin-loader\x27" = false →
        strContains s "Multiple build operations failed" = false →
        detect_gradle_cache_issue s = false) := by
  refine ⟨?_, ?_, ?_, ?_, ?_⟩
  · intro h
    exact strContains_mono s "requires Android NDK"
      "requires Android NDK 27.0.12077973" (by decide) h
  · intro h1 h2
    simp [ndk_version_error, h1, h2]
  · intro h1 h2
    simp [kotlin_dsl_error, h1, h2]
  · intro h1 h2
    simp [java_gradle_error, h1, h2]
  · intro h1 h2 h3 h4
    simp [detect_gradle_cache_issue, h1, h2, h3, h4]

/-- Witness for the amended C1 theorem. -/
theorem C1_classifier_amended_witness :
    build_apk_ndk_check
      "error: requires Android NDK 27.0.12077973 to build" = true ∧
    ndk_version_error
      "Your project is configured with Android NDK 26.1.10909125, but requires Android NDK 27.0.12077973" = true ∧
    kotlin_dsl_error "requires Android NDK 27.0.12077973" = false :=
  ⟨(C1_classifier_amended _).1 (by decide),
   (C1_classifier_amended _).2.1 (by decide) (by decide),
   (C1_classifier_amended _).2.2.1 (by decide) (by decide)⟩

/-! ## Claim C6 — NDK reconciliation scenario -/

/-- Claim C6: with `ndk.dir=/x/ndk/23.1.7779620` in the properties file and
`ndkVersion "21.4.7075529"` in the build script, the reconciliation step
rewrites the build script to the `ndk.dir` version 23.1.7779620, comments
out the properties file's `ndk.dir` line, and does not leave both files
unmodified. -/
theorem C6_ndk_reconciliation :
    (check_and_fix_ndk_versions c6State).2 = true ∧
    (check_and_fix_ndk_versions c6State).1.appGradle =
      some ("android \x7b\n    ndkVersion \"23.1.7779620\"\n\x7d\n").data ∧
    (check_and_fix_ndk_versions c6State).1.localProps =
      some ("# ndk.dir=disabled_by_script (ビルドエラー修正のため、代わりにndkVersionを使用)\n").data ∧
    (check_and_fix_ndk_versions c6State).1 ≠ c6State := by
  refine ⟨by decide, by decide, by decide, by decide⟩

/-! ## Claim C4 — backup files -/

theorem updateGradleStep_frame (v : List Char) (acc : FS × Bool)
    (path p : String) (hp : p ≠ path) :
    fsGet (updateGradleStep v acc path).1 p = fsGet acc.1 p := by
  unfold updateGradleStep
  cases h : fsGet acc.1 path with
  | none => rfl
  | some content =>
    simp only []
    split_ifs with hr
    · simp only []
      rw [fsGet_fsSet, if_neg hp]
    · rfl

/-- Claim C4, counterexample: `update_gradle_ndk_version` successfully
patches the app build script (returns `True`) yet the resulting filesystem
contains no `.bak` file at all — the operation writes no backup. -/
theorem C4_counterexample :
    (update_gradle_ndk_version targetNdk
        [(appGradlePath, ⟨gradleSimpleContent⟩)]).2 = true ∧
    (update_gradle_ndk_version targetNdk
        [(appGradlePath, ⟨gradleSimpleContent⟩)]).1 =
      [(appGradlePath,
        "android \x7b\n    ndkVersion \"27.0.12077973\"\n\x7d\n")] := by
  refine ⟨by decide, by decide⟩

/-- Claim C4, amended: only `fix_build_gradle_kts` writes a `.bak` backup —
it always records the pre-patch content of the chosen gradle file under
`<file>.bak`; `update_gradle_ndk_version` and `fix_ndk_version` touch only
their target scripts and create no file at any other path, hence no
backup. -/
theorem C4_backup_amended :
    (∀ (fs : FS) (c : String), fsGet fs ktsPath = some c →
        fsGet (fix_build_gradle_kts fs).1 (ktsPath ++ ".bak") = some c) ∧
    (∀ (fs : FS) (c : String), fsGet fs ktsPath = none →
        fsGet fs appGradlePath = some c →
        fsGet (fix_build_gradle_kts fs).1 (appGradlePath ++ ".bak") = some c) ∧
    (∀ (v : List Char) (fs : FS) (p : String),
        p ≠ appGradlePath → p ≠ projGradlePath →
        fsGet (update_gradle_ndk_version v fs).1 p = fsGet fs p) ∧
    (∀ (e : String) (fs : FS) (p : String),
        p ≠ ktsPath → p ≠ appGradlePath →
        fsGet (fix_ndk_version e fs).1 p = fsGet fs p) := by
  refine ⟨?_, ?_, ?_, ?_⟩
  · intro fs c h
    have hne : ktsPath ++ ".bak" ≠ ktsPath := by decide
    simp only [fix_build_gradle_kts, h]
    split_ifs with h1
    · rw [fsGet_fsSet, if_pos rfl]
    · rw [fsGet_fsSet, if_neg hne, fsGet_fsSet, if_pos rfl]
  · intro fs c hk h
    have hne : appGradlePath ++ ".bak" ≠ appGradlePath := by decide
    simp only [fix_build_gradle_kts, hk, h]
    split_ifs with h1
    · rw [fsGet_fsSet, if_pos rfl]
    · rw [fsGet_fsSet, if_neg hne, fsGet_fsSet, if_pos rfl]
  · intro v fs p hp1 hp2
    unfold update_gradle_ndk_version
    simp only [List.foldl]
    rw [updateGradleStep_frame _ _ _ _ hp2, updateGradleStep_frame _ _ _ _ hp1]
  · intro e fs p hp1 hp2
    unfold fix_ndk_version
    cases hk : fsGet fs ktsPath with
    | some c =>
      simp only []
      rw [fsGet_fsSet, if_neg hp1]
    | none =>
      cases ha : fsGet fs appGradlePath with
      | some c =>
        simp only []
        rw [fsGet_fsSet, if_neg hp2]
      | none => rfl

/-- Witness for the amended C4 theorem. -/
theorem C4_backup_amended_witness :
    fsGet (fix_build_gradle_kts
        [(ktsPath, "android \x7b\n\x7d\n")]).1 (ktsPath ++ ".bak") =
      some "android \x7b\n\x7d\n" ∧
    fsGet (update_gradle_ndk_version targetNdk
        [(appGradlePath, ⟨gradleSimpleContent⟩)]).1
      (appGradlePath ++ ".bak") = none :=
  ⟨C4_backup_amended.1 [(ktsPath, "android \x7b\n\x7d\n")]
      "android \x7b\n\x7d\n" (by decide),
   by
    rw [C4_backup_amended.2.2.1 targetNdk
      [(appGradlePath, ⟨gradleSimpleContent⟩)] (appGradlePath ++ ".bak")
      (by decide) (by decide)]
    decide⟩

/-! ## Claim C5 — cascade termination -/

theorem build_apk_rec_succ (v : Bool) (env : BuildApkEnv) (fuel : Nat) :
    build_apk_rec v (fuel + 1) env = build_apk_rec v 1 env := by
  by_cases h1 : (run_command (env.buildOutcomes.headD .raised) v false).1 = true
  · simp only [build_apk_rec, h1, Bool.not_true, Bool.false_eq_true, if_false]
  · have h1' : (run_command (env.buildOutcomes.headD .raised) v false).1 = false := by
      simpa using h1
    have hn := run_command_fail_none _ _ _ h1'
    have hs : strContains (pyStr none) "requires Android NDK" = false := by
      decide
    simp only [build_apk_rec, h1', hn, hs, Bool.not_false, if_true,
      Bool.false_eq_true, if_false]

theorem build_apk_rec_isSome (v : Bool) (env : BuildApkEnv) :
    (build_apk_rec v 1 env).isSome = true := by
  by_cases h1 : (run_command (env.buildOutcomes.headD .raised) v false).1 = true
  · simp only [build_apk_rec, h1, Bool.not_true, Bool.false_eq_true, if_false,
      Option.isSome_some]
  · have h1' : (run_command (env.buildOutcomes.headD .raised) v false).1 = false := by
      simpa using h1
    have hn := run_command_fail_none _ _ _ h1'
    have hs : strContains (pyStr none) "requires Android NDK" = false := by
      decide
    simp only [build_apk_rec, h1', hn, hs, Bool.not_false, if_true,
      Bool.false_eq_true, if_false, Option.isSome_some]

set_option maxHeartbeats 1600000 in
/-- Claim C5: the repair cascade terminates — `build_apk`'s retry recursion
is never entered (with fuel 1 it already returns a result, and more fuel
changes nothing), and one `main` cascade run tries each remedy at most
once, only remedies from the fixed list, with at most 7 build invocations
in total. -/
theorem C5_cascade_termination :
    (∀ (verbose : Bool) (env : BuildApkEnv) (fuel : Nat), 1 ≤ fuel →
        build_apk_rec verbose fuel env = build_apk_rec verbose 1 env ∧
        (build_apk_rec verbose fuel env).isSome = true) ∧
    (∀ env : CascadeEnv,
        (main_cascade env).2.1.Nodup ∧
        (main_cascade env).2.1 ⊆
          ["NDKバージョン修正", "Kotlin DSL修正", "Java/Gradle互換性修正",
           "Vibrationプラグイン修正", "Gradleキャッシュ修正"] ∧
        (main_cascade env).2.2 ≤ 7) := by
  constructor
  · intro verbose env fuel hf
    obtain ⟨fuel', rfl⟩ : ∃ k, fuel = k + 1 := ⟨fuel - 1, by omega⟩
    rw [build_apk_rec_succ]
    exact ⟨rfl, build_apk_rec_isSome _ _⟩
  · intro env
    have h1 : ndk_version_error "" = false := by decide
    have h2 : kotlin_dsl_error "" = false := by decide
    have h3 : java_gradle_error "" = false := by decide
    have h4 : detect_gradle_cache_issue "" = false := by decide
    simp only [main_cascade, h1, h2, h3, h4, Bool.false_and, Bool.false_eq_true,
      if_false, Bool.false_or, List.nil_append]
    split_ifs <;> refine ⟨by decide, by decide, by decide⟩

/-- Witness for C5 at concrete environments. -/
theorem C5_cascade_termination_witness :
    build_apk_rec false 5 ⟨[ExecOutcome.completed 1 "err"], [true], [true]⟩ =
      build_apk_rec false 1 ⟨[ExecOutcome.completed 1 "err"], [true], [true]⟩ ∧
    (main_cascade ⟨fun _ => false, "", true, false, true, true⟩).2.2 ≤ 7 :=
  ⟨(C5_cascade_termination.1 false
      ⟨[ExecOutcome.completed 1 "err"], [true], [true]⟩ 5 (by decide)).1,
   (C5_cascade_termination.2 ⟨fun _ => false, "", true, false, true, true⟩).2.2⟩

/-! ## Claim C3 — matcher locality theory

The `fix_build_gradle_kts` content step is idempotent.  The key fact is
that the version matcher can never read past an `ndkVersion` head or an
`android {` brace coming from a replacement boundary: every stage of the
matcher is stopped by the characters `n`, `d` and `{`, so whether the
matcher fails at a position is independent of the text behind such a
boundary. -/

theorem ndkv_eq : ndkvLit = ['n', 'd', 'k', 'V', 'e', 'r', 's', 'i', 'o', 'n'] := by
  decide

theorem dropLit_some_iff (n l r : List Char) :
    dropLit n l = some r ↔ l = n ++ r := by
  induction n generalizing l with
  | nil => simp [dropLit, eq_comm]
  | cons c cs ih =>
    cases l with
    | nil => simp [dropLit]
    | cons d ds =>
      by_cases h : c = d
      · subst h
        simp [dropLit, ih]
      · have hb : (c == d) = false := by simpa [beq_iff_eq] using h
        simp only [dropLit, hb, Bool.false_eq_true, if_false]
        constructor
        · intro hh; exact absurd hh (by simp)
        · intro hh
          exact absurd (List.cons.inj hh).1.symm h

theorem dropLit_refl (n x : List Char) : dropLit n (n ++ x) = some x :=
  (dropLit_some_iff n (n ++ x) x).mpr rfl

theorem dropLit_append_left (n w Z : List Char) (h : n.length ≤ w.length) :
    dropLit n (w ++ Z) = (dropLit n w).map (fun r => r ++ Z) := by
  induction n generalizing w with
  | nil => simp [dropLit]
  | cons c cs ih =>
    cases w with
    | nil => simp at h
    | cons d w' =>
      by_cases hc : c = d
      · subst hc
        simp only [List.cons_append, dropLit, beq_self_eq_true, if_true]
        exact ih w' (by simpa using h)
      · have hb : (c == d) = false := by simpa [beq_iff_eq] using hc
        simp [dropLit, hb]

theorem dropLit_append_short (n w Z : List Char) (h : w.length ≤ n.length) :
    dropLit n (w ++ Z) =
      if chListPre w n = true then dropLit (n.drop w.length) Z else none := by
  induction w generalizing n with
  | nil => simp [chListPre]
  | cons c w' ih =>
    cases n with
    | nil => simp at h
    | cons d n' =>
      by_cases hc : c = d
      · subst hc
        simp only [List.cons_append, dropLit, beq_self_eq_true, if_true, chListPre,
          Bool.true_and, List.length_cons, List.drop_succ_cons]
        exact ih n' (by simpa using h)
      · have hb1 : (d == c) = false := by
          simp [beq_iff_eq]
          intro hh
          exact hc hh.symm
        have hb2 : (c == d) = false := by simpa [beq_iff_eq] using hc
        simp [dropLit, chListPre, hb1, hb2]

theorem patKtsNdkV_nil : patKtsNdkV [] = none := by
  rw [patKtsNdkV, ndkv_eq]
  rfl

theorem patKtsNdkV_head (c : Char) (Z : List Char) (h : c ≠ 'n') :
    patKtsNdkV (c :: Z) = none := by
  rw [patKtsNdkV, ndkv_eq]
  have hb : (('n' : Char) == c) = false := by
    simp [beq_iff_eq]
    intro hh
    exact h hh.symm
  simp [dropLit, hb]

theorem verQuoteStage_barrier (u : List Char) (b : Char)
    (hv : isVerCh b = false) (hq : isQuoteCh b = false) :
    (∀ Z, verQuoteStage (u ++ b :: Z) = none) ∨
    (∀ Z, (verQuoteStage (u ++ b :: Z)).isSome = true) := by
  have hdw : ∀ Z : List Char, (u ++ b :: Z).dropWhile isVerCh =
      if (u.dropWhile isVerCh).isEmpty = true then b :: Z
      else u.dropWhile isVerCh ++ b :: Z := by
    intro Z
    rw [List.dropWhile_append]
    split_ifs with h
    · rw [List.dropWhile_cons_of_neg (by simp [hv])]
    · rfl
  by_cases hemp : (u.dropWhile isVerCh).isEmpty = true
  · left
    intro Z
    unfold verQuoteStage
    rw [hdw Z, if_pos hemp]
    simp [hq]
  · rcases hcons : u.dropWhile isVerCh with _ | ⟨e, u4⟩
    · rw [hcons] at hemp
      simp at hemp
    · have hg : ∀ Z : List Char,
          (u ++ b :: Z).takeWhile isVerCh = u.takeWhile isVerCh := by
        intro Z
        rw [List.takeWhile_append, if_neg]
        intro hlenEq
        have hsum : (u.takeWhile isVerCh).length + (u.dropWhile isVerCh).length
            = u.length := by
          rw [← List.length_append, List.takeWhile_append_dropWhile]
        rw [hcons] at hsum
        simp at hsum
        omega
      by_cases hcond : (isQuoteCh e && !(u.takeWhile isVerCh).isEmpty) = true
      · right
        intro Z
        unfold verQuoteStage
        rw [hdw Z, if_neg hemp, hcons, hg Z]
        simp [hcond]
      · left
        intro Z
        unfold verQuoteStage
        rw [hdw Z, if_neg hemp, hcons, hg Z]
        simp only [List.cons_append]
        simp [hcond]

theorem quoteStage_barrier (u : List Char) (b : Char)
    (hv : isVerCh b = false) (hq : isQuoteCh b = false) :
    (∀ Z, quoteStage (u ++ b :: Z) = none) ∨
    (∀ Z, (quoteStage (u ++ b :: Z)).isSome = true) := by
  cases u with
  | nil =>
    left
    intro Z
    simp [quoteStage, hq]
  | cons c u' =>
    by_cases hc : isQuoteCh c = true
    · rcases verQuoteStage_barrier u' b hv hq with h | h
      · left
        intro Z
        simp [quoteStage, hc, h Z]
      · right
        intro Z
        simpa [quoteStage, hc] using h Z
    · left
      intro Z
      simp [quoteStage, hc]

theorem eqStep_nil : eqStep [] = [] := rfl

theorem eqStep_cons_ne (b : Char) (Z : List Char) (he : b ≠ '=') :
    eqStep (b :: Z) = b :: Z := by
  unfold eqStep
  split
  · next t heq =>
      exact absurd (List.cons.inj heq).1 he
  · rfl

theorem eqStep_append_cons (a : Char) (u₂ W : List Char) :
    eqStep ((a :: u₂) ++ W) = eqStep (a :: u₂) ++ W := by
  by_cases ha : a = '='
  · subst ha
    rfl
  · rw [List.cons_append, eqStep_cons_ne _ _ ha, eqStep_cons_ne _ _ ha]
    rfl

theorem patKtsTail_decomp (u : List Char) (b : Char) (Z : List Char)
    (hsp : isPySpace b = false) (he : b ≠ '=') :
    patKtsTail (u ++ b :: Z) = quoteStage (tailSpine u ++ b :: Z) := by
  unfold patKtsTail tailSpine
  rw [List.dropWhile_append]
  by_cases hemp : (u.dropWhile isPySpace).isEmpty = true
  · rw [if_pos hemp]
    have hnil : u.dropWhile isPySpace = [] := by
      simpa [List.isEmpty_iff] using hemp
    rw [List.dropWhile_cons_of_neg (by simp [hsp]), eqStep_cons_ne _ _ he,
      List.dropWhile_cons_of_neg (by simp [hsp]), hnil, eqStep_nil]
    simp
  · rw [if_neg hemp]
    rcases hcons : u.dropWhile isPySpace with _ | ⟨a, u₂⟩
    · rw [hcons] at hemp
      simp at hemp
    · rw [eqStep_append_cons, List.dropWhile_append]
      by_cases h2 : ((eqStep (a :: u₂)).dropWhile isPySpace).isEmpty = true
      · rw [if_pos h2]
        have h2nil : (eqStep (a :: u₂)).dropWhile isPySpace = [] := by
          simpa [List.isEmpty_iff] using h2
        rw [List.dropWhile_cons_of_neg (by simp [hsp]), h2nil]
        simp
      · rw [if_neg h2]

theorem patKtsTail_barrier (u : List Char) (b : Char)
    (hsp : isPySpace b = false) (he : b ≠ '=')
    (hv : isVerCh b = false) (hq : isQuoteCh b = false) :
    (∀ Z, patKtsTail (u ++ b :: Z) = none) ∨
    (∀ Z, (patKtsTail (u ++ b :: Z)).isSome = true) := by
  rcases quoteStage_barrier (tailSpine u) b hv hq with h | h
  · left
    intro Z
    rw [patKtsTail_decomp u b Z hsp he]
    exact h Z
  · right
    intro Z
    rw [patKtsTail_decomp u b Z hsp he]
    exact h Z

theorem patKtsNdkV_nd_barrier (w : List Char) (hw : w ≠ []) :
    (∀ Z, patKtsNdkV (w ++ 'n' :: 'd' :: Z) = none) ∨
    (∀ Z, (patKtsNdkV (w ++ 'n' :: 'd' :: Z)).isSome = true) := by
  by_cases hlen : ndkvLit.length ≤ w.length
  · rcases hdl : dropLit ndkvLit w with _ | w'
    · left
      intro Z
      rw [patKtsNdkV, dropLit_append_left _ _ _ hlen, hdl]
      rfl
    · have key : ∀ X, patKtsNdkV (w ++ X) = patKtsTail (w' ++ X) := by
        intro X
        rw [patKtsNdkV, dropLit_append_left _ _ _ hlen, hdl]
        rfl
      rcases patKtsTail_barrier w' 'n' (by decide) (by decide) (by decide)
          (by decide) with h | h
      · left
        intro Z
        rw [key ('n' :: 'd' :: Z)]
        exact h ('d' :: Z)
      · right
        intro Z
        rw [key ('n' :: 'd' :: Z)]
        exact h ('d' :: Z)
  · push_neg at hlen
    have hwl : w.length ≤ ndkvLit.length := le_of_lt hlen
    by_cases hpre : chListPre w ndkvLit = true
    · left
      intro Z
      rw [patKtsNdkV, dropLit_append_short _ _ _ hwl, if_pos hpre]
      have h10 : ndkvLit.length = 10 := by decide
      have hk1 : 1 ≤ w.length := by
        cases w
        · exact absurd rfl hw
        · simp
      have hk9 : w.length ≤ 9 := by omega
      set k := w.length with hkeq
      clear_value k
      interval_cases k <;> rfl
    · left
      intro Z
      rw [patKtsNdkV, dropLit_append_short _ _ _ hwl, if_neg hpre]
      rfl

theorem patKtsNdkV_brace_barrier (w : List Char) :
    (∀ Z, patKtsNdkV (w ++ obrace :: Z) = none) ∨
    (∀ Z, (patKtsNdkV (w ++ obrace :: Z)).isSome = true) := by
  by_cases hlen : ndkvLit.length ≤ w.length
  · rcases hdl : dropLit ndkvLit w with _ | w'
    · left
      intro Z
      rw [patKtsNdkV, dropLit_append_left _ _ _ hlen, hdl]
      rfl
    · have key : ∀ X, patKtsNdkV (w ++ X) = patKtsTail (w' ++ X) := by
        intro X
        rw [patKtsNdkV, dropLit_append_left _ _ _ hlen, hdl]
        rfl
      rcases patKtsTail_barrier w' obrace (by decide) (by decide) (by decide)
          (by decide) with h | h
      · left
        intro Z
        rw [key (obrace :: Z)]
        exact h Z
      · right
        intro Z
        rw [key (obrace :: Z)]
        exact h Z
  · push_neg at hlen
    have hwl : w.length ≤ ndkvLit.length := le_of_lt hlen
    by_cases hpre : chListPre w ndkvLit = true
    · left
      intro Z
      rw [patKtsNdkV, dropLit_append_short _ _ _ hwl, if_pos hpre]
      have h10 : ndkvLit.length = 10 := by decide
      have hk9 : w.length ≤ 9 := by omega
      set k := w.length with hkeq
      clear_value k
      interval_cases k <;> rfl
    · left
      intro Z
      rw [patKtsNdkV, dropLit_append_short _ _ _ hwl, if_neg hpre]
      rfl

/-! ### Shrinking and fuel congruence -/

theorem dropWhile_len_le (p : Char → Bool) (l : List Char) :
    (l.dropWhile p).length ≤ l.length :=
  (List.dropWhile_sublist p).length_le

theorem verQuoteStage_some_length (r5 g r : List Char)
    (h : verQuoteStage r5 = some (g, r)) : r.length < r5.length := by
  unfold verQuoteStage at h
  split at h
  next d r6 hd =>
    split at h
    · obtain ⟨rfl, rfl⟩ : g = r5.takeWhile isVerCh ∧ r = r6 := by
        constructor
        · exact ((Prod.mk.injEq _ _ _ _).mp (Option.some.inj h)).1.symm
        · exact ((Prod.mk.injEq _ _ _ _).mp (Option.some.inj h)).2.symm
      have h1 : (r5.dropWhile isVerCh).length ≤ r5.length :=
        dropWhile_len_le _ _
      rw [hd] at h1
      simp at h1
      omega
    · simp at h
  next hd => simp at h

theorem quoteStage_some_length (r4 g r : List Char)
    (h : quoteStage r4 = some (g, r)) : r.length < r4.length := by
  unfold quoteStage at h
  split at h
  · simp at h
  next c r5 =>
    split at h
    · have := verQuoteStage_some_length r5 g r h
      simp
      omega
    · simp at h

theorem eqStep_length_le (l : List Char) : (eqStep l).length ≤ l.length := by
  unfold eqStep
  split
  · simp
  · exact le_refl _

theorem patKtsTail_some_length (mid g r : List Char)
    (h : patKtsTail mid = some (g, r)) : r.length < mid.length + 1 := by
  unfold patKtsTail at h
  have h1 := quoteStage_some_length _ _ _ h
  have h2 : ((eqStep (mid.dropWhile isPySpace)).dropWhile isPySpace).length ≤
      (eqStep (mid.dropWhile isPySpace)).length := dropWhile_len_le _ _
  have h3 := eqStep_length_le (mid.dropWhile isPySpace)
  have h4 : (mid.dropWhile isPySpace).length ≤ mid.length :=
    dropWhile_len_le _ _
  omega

theorem patKtsNdkV_shrink (l g r : List Char) (h : patKtsNdkV l = some (g, r)) :
    r.length < l.length := by
  rw [patKtsNdkV] at h
  rcases hdl : dropLit ndkvLit l with _ | mid <;> rw [hdl] at h
  · simp at h
  · simp only [Option.some_bind] at h
    have hl : l = ndkvLit ++ mid := (dropLit_some_iff _ _ _).mp hdl
    have := patKtsTail_some_length mid g r h
    have h10 : ndkvLit.length = 10 := by decide
    rw [hl]
    simp [h10]
    omega

theorem patKtsNdkSub_shrink (k : Bool) (l r₁ r₂ : List Char)
    (h : patKtsNdkSub k l = some (r₁, r₂)) : r₂.length < l.length := by
  unfold patKtsNdkSub at h
  cases hp : patKtsNdkV l with
  | none =>
    rw [hp] at h
    simp at h
  | some gr =>
    obtain ⟨g, r⟩ := gr
    rw [hp] at h
    dsimp only [Option.map] at h
    have hr : r₂ = r := ((Prod.mk.injEq _ _ _ _).mp (Option.some.inj h)).2.symm
    rw [hr]
    exact patKtsNdkV_shrink l g r hp

theorem patAndroidBlock_shrink (k : Bool) (l e rem : List Char)
    (h : patAndroidBlock k l = some (e, rem)) : rem.length < l.length := by
  unfold patAndroidBlock at h
  rcases hdl : dropLit "android".data l with _ | r1 <;> rw [hdl] at h
  · simp at h
  · simp only [Option.some_bind] at h
    rcases hd : r1.dropWhile isPySpace with _ | ⟨c, r2⟩ <;> rw [hd] at h
    · simp at h
    · dsimp only at h
      by_cases hc : (c == obrace) = true
      · rw [if_pos hc] at h
        have hr : rem = r2 := ((Prod.mk.injEq _ _ _ _).mp (Option.some.inj h)).2.symm
        subst hr
        have hl : l = "android".data ++ r1 := (dropLit_some_iff _ _ _).mp hdl
        have h1 : (r1.dropWhile isPySpace).length ≤ r1.length :=
          dropWhile_len_le _ _
        rw [hd] at h1
        simp at h1
        rw [hl]
        simp
        omega
      · rw [if_neg hc] at h
        simp at h

theorem reSubG_nil (pat : List Char → Option (List Char × List Char))
    (f : Nat) : reSubG pat f [] = [] := by
  cases f <;> rfl

theorem reSubG_fuel (pat : List Char → Option (List Char × List Char))
    (hsh : ∀ l r₁ r₂, pat l = some (r₁, r₂) → r₂.length < l.length) :
    ∀ f₁ f₂ l, l.length ≤ f₁ → l.length ≤ f₂ →
      reSubG pat f₁ l = reSubG pat f₂ l := by
  intro f₁
  induction f₁ with
  | zero =>
    intro f₂ l h₁ h₂
    have : l = [] := by
      cases l
      · rfl
      · simp at h₁
    subst this
    rw [reSubG_nil, reSubG_nil]
  | succ f₁' ih =>
    intro f₂ l h₁ h₂
    cases f₂ with
    | zero =>
      have : l = [] := by
        cases l
        · rfl
        · simp at h₂
      subst this
      rw [reSubG_nil, reSubG_nil]
    | succ f₂' =>
      cases l with
      | nil => rfl
      | cons c rest =>
        simp only [reSubG]
        cases hpat : pat (c :: rest) with
        | none =>
          dsimp only
          rw [ih f₂' rest (by simpa using h₁) (by simpa using h₂)]
        | some rr =>
          obtain ⟨r₁, r₂⟩ := rr
          have hr := hsh _ _ _ hpat
          simp only [List.length_cons] at h₁ h₂
          simp only [List.length_cons] at hr
          dsimp only
          rw [ih f₂' r₂ (by omega) (by omega)]

/-! ### The replacement text and its suffixes -/

theorem patKtsNdkV_repl (k : Bool) (X : List Char) :
    patKtsNdkV
      ((if k then replNdkKts targetNdk else replNdkGroovy targetNdk) ++ X) =
      some (targetNdk, X) := by
  cases k
  · rfl
  · rfl

theorem replShape (k : Bool) :
    (if k then replNdkKts targetNdk else replNdkGroovy targetNdk) =
      'n' :: 'd' ::
        (if k then ("kVersion = \"27.0.12077973\"").data
         else ("kVersion \"27.0.12077973\"").data) := by
  cases k <;> rfl

theorem repl_suffix_fail (k : Bool) (s₁ X : List Char)
    (hs : s₁ <:+ (if k then replNdkKts targetNdk else replNdkGroovy targetNdk))
    (hne : s₁ ≠ (if k then replNdkKts targetNdk else replNdkGroovy targetNdk))
    (hnil : s₁ ≠ []) :
    patKtsNdkV (s₁ ++ X) = none := by
  obtain ⟨t, ht⟩ := hs
  have hs₁ : s₁ =
      (if k then replNdkKts targetNdk else replNdkGroovy targetNdk).drop
        t.length := by
    rw [← ht, List.drop_left]
  have hlen : t.length + s₁.length =
      (if k then replNdkKts targetNdk else replNdkGroovy targetNdk).length := by
    rw [← List.length_append, ht]
  have h1 : 1 ≤ t.length := by
    cases t with
    | nil =>
      simp at ht
      exact absurd ht hne
    | cons x t' => simp
  have hs₁len : 1 ≤ s₁.length := by
    cases s₁ with
    | nil => exact absurd rfl hnil
    | cons y s' => simp
  cases k
  · have hR : (replNdkGroovy targetNdk).length = 26 := by decide
    simp only [Bool.false_eq_true, if_false] at hs₁ hlen ⊢
    rw [hR] at hlen
    have h2 : t.length ≤ 25 := by omega
    rw [hs₁]
    set i := t.length with hieq
    clear_value i
    interval_cases i <;> rfl
  · have hR : (replNdkKts targetNdk).length = 28 := by decide
    simp only [if_true] at hs₁ hlen ⊢
    rw [hR] at hlen
    have h2 : t.length ≤ 27 := by omega
    rw [hs₁]
    set i := t.length with hieq
    clear_value i
    interval_cases i <;> rfl

theorem suffix_append_split (s a b : List Char) (h : s <:+ a ++ b) :
    s <:+ b ∨ ∃ s₁, s₁ <:+ a ∧ s₁ ≠ [] ∧ s = s₁ ++ b := by
  induction a with
  | nil =>
    left
    simpa using h
  | cons x a' ih =>
    rw [List.cons_append] at h
    rcases List.suffix_cons_iff.mp h with h1 | h2
    · right
      exact ⟨x :: a', List.suffix_refl _, by simp, by rw [h1, List.cons_append]⟩
    · rcases ih h2 with h3 | ⟨s₁, hs₁, hne, rfl⟩
      · left
        exact h3
      · right
        exact ⟨s₁, hs₁.trans (List.suffix_cons x a'), hne, rfl⟩

/-! ### The matcher never reads across a replacement boundary -/

theorem patKtsNdkSub_none_iff (k : Bool) (l : List Char) :
    patKtsNdkSub k l = none ↔ patKtsNdkV l = none := by
  unfold patKtsNdkSub
  cases patKtsNdkV l <;> simp

theorem patKtsNdkSub_some_parts (k : Bool) (l r₁ r₂ : List Char)
    (h : patKtsNdkSub k l = some (r₁, r₂)) :
    r₁ = (if k then replNdkKts targetNdk else replNdkGroovy targetNdk) ∧
    ∃ g, patKtsNdkV l = some (g, r₂) := by
  unfold patKtsNdkSub at h
  cases hq : patKtsNdkV l with
  | none =>
    rw [hq] at h
    simp at h
  | some gr =>
    obtain ⟨g, r⟩ := gr
    rw [hq] at h
    dsimp only [Option.map] at h
    obtain ⟨h1, h2⟩ := (Prod.mk.injEq _ _ _ _).mp (Option.some.inj h)
    exact ⟨h1.symm, g, by rw [h2]⟩

theorem patKtsNdkV_some_shape (l g r : List Char)
    (h : patKtsNdkV l = some (g, r)) : ∃ mid, l = ndkvLit ++ mid := by
  rw [patKtsNdkV] at h
  cases hdl : dropLit ndkvLit l with
  | none =>
    rw [hdl] at h
    simp at h
  | some mid => exact ⟨mid, (dropLit_some_iff _ _ _).mp hdl⟩

theorem ndkv_split : ndkvLit = 'n' :: 'd' :: ("kVersion").data := by decide

theorem reSubG_sub_none_preserve (k : Bool) :
    ∀ (fuel : Nat) (w rest : List Char), rest.length ≤ fuel → w ≠ [] →
      patKtsNdkV (w ++ rest) = none →
      patKtsNdkV (w ++ reSubG (patKtsNdkSub k) fuel rest) = none := by
  intro fuel
  induction fuel with
  | zero =>
    intro w rest hlen hw h
    exact h
  | succ fuel' ih =>
    intro w rest hlen hw h
    cases rest with
    | nil =>
      simpa [reSubG_nil] using h
    | cons d rest' =>
      cases hpat : patKtsNdkSub k (d :: rest') with
      | none =>
        have hres : reSubG (patKtsNdkSub k) (fuel' + 1) (d :: rest') =
            d :: reSubG (patKtsNdkSub k) fuel' rest' := by
          simp only [reSubG, hpat]
        rw [hres]
        have h' : patKtsNdkV ((w ++ [d]) ++ rest') = none := by
          simpa [List.append_assoc] using h
        have := ih (w ++ [d]) rest' (by simpa using hlen) (by simp) h'
        simpa [List.append_assoc] using this
      | some rr =>
        obtain ⟨r₁, r₂⟩ := rr
        have hres : reSubG (patKtsNdkSub k) (fuel' + 1) (d :: rest') =
            r₁ ++ reSubG (patKtsNdkSub k) fuel' r₂ := by
          simp only [reSubG, hpat]
        rw [hres]
        obtain ⟨hr₁, g, hg⟩ := patKtsNdkSub_some_parts k _ _ _ hpat
        obtain ⟨mid, hmid⟩ := patKtsNdkV_some_shape _ _ _ hg
        rcases patKtsNdkV_nd_barrier w hw with hb | hb
        · rw [hr₁, replShape, ← List.append_assoc]
          have := hb ((if k then ("kVersion = \"27.0.12077973\"").data
              else ("kVersion \"27.0.12077973\"").data) ++
              reSubG (patKtsNdkSub k) fuel' r₂)
          simpa [List.append_assoc] using this
        · exfalso
          have hinst := hb (("kVersion").data ++ mid)
          rw [hmid, ndkv_split] at h
          simp only [List.append_assoc, List.cons_append] at h hinst
          rw [h] at hinst
          simp at hinst

theorem patAndroidBlock_some_shape (k : Bool) (l e rem : List Char)
    (h : patAndroidBlock k l = some (e, rem)) :
    ∃ sp, (∀ x ∈ sp, isPySpace x = true) ∧
      l = "android".data ++ sp ++ obrace :: rem ∧
      e = "android".data ++ sp ++ [obrace] ++ '\n' :: "    ".data ++
          (if k then replNdkKts targetNdk else replNdkGroovy targetNdk) := by
  unfold patAndroidBlock at h
  cases hdl : dropLit "android".data l with
  | none =>
    rw [hdl] at h
    simp at h
  | some r1 =>
    rw [hdl] at h
    dsimp only [Option.bind] at h
    rcases hd : r1.dropWhile isPySpace with _ | ⟨c, r2⟩ <;> rw [hd] at h
    · simp at h
    · dsimp only at h
      by_cases hc : (c == obrace) = true
      · rw [if_pos hc] at h
        have hceq : c = obrace := by simpa [beq_iff_eq] using hc
        obtain ⟨he, hrem⟩ := (Prod.mk.injEq _ _ _ _).mp (Option.some.inj h)
        refine ⟨r1.takeWhile isPySpace,
          fun x hx => List.mem_takeWhile_imp hx, ?_, ?_⟩
        · have hl : l = "android".data ++ r1 := (dropLit_some_iff _ _ _).mp hdl
          conv_lhs => rw [hl, ← List.takeWhile_append_dropWhile isPySpace r1]
          rw [hd, hceq, hrem]
          simp [List.append_assoc]
        · rw [← he]
          simp [List.append_assoc]
      · rw [if_neg hc] at h
        simp at h

theorem reSubG_and_none_preserve (k : Bool) :
    ∀ (fuel : Nat) (w rest : List Char), rest.length ≤ fuel →
      patKtsNdkV (w ++ rest) = none →
      patKtsNdkV (w ++ reSubG (patAndroidBlock k) fuel rest) = none := by
  intro fuel
  induction fuel with
  | zero =>
    intro w rest hlen h
    exact h
  | succ fuel' ih =>
    intro w rest hlen h
    cases rest with
    | nil =>
      simpa [reSubG_nil] using h
    | cons d rest' =>
      cases hpat : patAndroidBlock k (d :: rest') with
      | none =>
        have hres : reSubG (patAndroidBlock k) (fuel' + 1) (d :: rest') =
            d :: reSubG (patAndroidBlock k) fuel' rest' := by
          simp only [reSubG, hpat]
        rw [hres]
        have h' : patKtsNdkV ((w ++ [d]) ++ rest') = none := by
          simpa [List.append_assoc] using h
        have := ih (w ++ [d]) rest' (by simpa using hlen) h'
        simpa [List.append_assoc] using this
      | some er =>
        obtain ⟨e, rem⟩ := er
        have hres : reSubG (patAndroidBlock k) (fuel' + 1) (d :: rest') =
            e ++ reSubG (patAndroidBlock k) fuel' rem := by
          simp only [reSubG, hpat]
        rw [hres]
        obtain ⟨sp, hsp, hshape, hemit⟩ := patAndroidBlock_some_shape k _ _ _ hpat
        rcases patKtsNdkV_brace_barrier (w ++ "android".data ++ sp) with hb | hb
        · rw [hemit]
          have := hb ('\n' :: "    ".data ++
            (if k then replNdkKts targetNdk else replNdkGroovy targetNdk) ++
            reSubG (patAndroidBlock k) fuel' rem)
          simpa [List.append_assoc, List.cons_append] using this
        · exfalso
          have hinst := hb rem
          rw [hshape] at h
          simp only [List.append_assoc, List.cons_append] at h hinst
          rw [h] at hinst
          simp at hinst

/-! ### Leftmost-search bridges -/

theorem reSearchG_some_suffix (pat : List Char → Option (List Char × List Char))
    (m : List Char) (gr : List Char × List Char)
    (h : reSearchG pat m = some gr) :
    ∃ s, s <:+ m ∧ pat s = some gr := by
  induction m with
  | nil => simp [reSearchG] at h
  | cons c rest ih =>
    simp only [reSearchG] at h
    cases hp : pat (c :: rest) with
    | some gr' =>
      rw [hp] at h
      dsimp only at h
      exact ⟨c :: rest, List.suffix_refl _, by rw [hp, h]⟩
    | none =>
      rw [hp] at h
      dsimp only at h
      obtain ⟨s, hs, hps⟩ := ih h
      exact ⟨s, hs.trans (List.suffix_cons c rest), hps⟩

theorem reSearchG_none_all (pat : List Char → Option (List Char × List Char))
    (m : List Char) (h : reSearchG pat m = none) :
    ∀ s, s <:+ m → s ≠ [] → pat s = none := by
  induction m with
  | nil =>
    intro s hs hne
    exact absurd (List.suffix_nil.mp hs) hne
  | cons c rest ih =>
    intro s hs hne
    simp only [reSearchG] at h
    cases hp : pat (c :: rest) with
    | some gr =>
      rw [hp] at h
      dsimp only at h
      exact absurd h (by simp)
    | none =>
      rw [hp] at h
      dsimp only at h
      rcases List.suffix_cons_iff.mp hs with h1 | h2
      · rw [h1]
        exact hp
      · exact ih h s h2 hne

theorem reSearchG_isSome_of (pat : List Char → Option (List Char × List Char))
    (hnil : pat [] = none) (m s : List Char) (hs : s <:+ m)
    (hsome : (pat s).isSome = true) :
    (reSearchG pat m).isSome = true := by
  induction m with
  | nil =>
    have : s = [] := List.suffix_nil.mp hs
    subst this
    rw [hnil] at hsome
    simp at hsome
  | cons c rest ih =>
    simp only [reSearchG]
    cases hp : pat (c :: rest) with
    | some gr => simp
    | none =>
      dsimp only
      rcases List.suffix_cons_iff.mp hs with h1 | h2
      · subst h1
        rw [hp] at hsome
        simp at hsome
      · exact ih h2

/-! ### The patched text always carries a version occurrence -/

theorem reSubG_sub_has_match (k : Bool) :
    ∀ (fuel : Nat) (l : List Char), l.length ≤ fuel →
      (∃ s, s <:+ l ∧ (patKtsNdkV s).isSome = true) →
      ∃ s', s' <:+ reSubG (patKtsNdkSub k) fuel l ∧
        (patKtsNdkV s').isSome = true := by
  intro fuel
  induction fuel with
  | zero =>
    intro l hlen hex
    have hl : l = [] := by
      cases l
      · rfl
      · simp at hlen
    subst hl
    obtain ⟨s, hs, hsome⟩ := hex
    rw [List.suffix_nil.mp hs, patKtsNdkV_nil] at hsome
    simp at hsome
  | succ fuel' ih =>
    intro l hlen hex
    cases l with
    | nil =>
      obtain ⟨s, hs, hsome⟩ := hex
      rw [List.suffix_nil.mp hs, patKtsNdkV_nil] at hsome
      simp at hsome
    | cons c rest =>
      cases hpat : patKtsNdkSub k (c :: rest) with
      | some rr =>
        obtain ⟨r₁, r₂⟩ := rr
        have hres : reSubG (patKtsNdkSub k) (fuel' + 1) (c :: rest) =
            r₁ ++ reSubG (patKtsNdkSub k) fuel' r₂ := by
          simp only [reSubG, hpat]
        rw [hres]
        obtain ⟨hr₁, g, hg⟩ := patKtsNdkSub_some_parts k _ _ _ hpat
        refine ⟨r₁ ++ reSubG (patKtsNdkSub k) fuel' r₂, List.suffix_refl _, ?_⟩
        rw [hr₁, patKtsNdkV_repl]
        rfl
      | none =>
        have hres : reSubG (patKtsNdkSub k) (fuel' + 1) (c :: rest) =
            c :: reSubG (patKtsNdkSub k) fuel' rest := by
          simp only [reSubG, hpat]
        rw [hres]
        obtain ⟨s, hs, hsome⟩ := hex
        rcases List.suffix_cons_iff.mp hs with h1 | h2
        · subst h1
          rw [(patKtsNdkSub_none_iff k _).mp hpat] at hsome
          simp at hsome
        · obtain ⟨s', hs', hsome'⟩ := ih rest (by simpa using hlen) ⟨s, h2, hsome⟩
          exact ⟨s', hs'.trans (List.suffix_cons _ _), hsome'⟩

theorem reSubG_and_has_match (k : Bool) :
    ∀ (fuel : Nat) (l : List Char), l.length ≤ fuel →
      reSubG (patAndroidBlock k) fuel l ≠ l →
      ∃ s', s' <:+ reSubG (patAndroidBlock k) fuel l ∧
        (patKtsNdkV s').isSome = true := by
  intro fuel
  induction fuel with
  | zero =>
    intro l hlen hne
    exact absurd rfl hne
  | succ fuel' ih =>
    intro l hlen hne
    cases l with
    | nil =>
      rw [reSubG_nil] at hne
      exact absurd rfl hne
    | cons c rest =>
      cases hpat : patAndroidBlock k (c :: rest) with
      | some er =>
        obtain ⟨e, rem⟩ := er
        have hres : reSubG (patAndroidBlock k) (fuel' + 1) (c :: rest) =
            e ++ reSubG (patAndroidBlock k) fuel' rem := by
          simp only [reSubG, hpat]
        rw [hres]
        obtain ⟨sp, hsp, hshape, hemit⟩ := patAndroidBlock_some_shape k _ _ _ hpat
        refine ⟨(if k then replNdkKts targetNdk else replNdkGroovy targetNdk) ++
          reSubG (patAndroidBlock k) fuel' rem, ?_, ?_⟩
        · rw [hemit]
          refine ⟨"android".data ++ sp ++ obrace :: '\n' :: "    ".data, ?_⟩
          simp [List.append_assoc]
        · rw [patKtsNdkV_repl]
          rfl
      | none =>
        have hres : reSubG (patAndroidBlock k) (fuel' + 1) (c :: rest) =
            c :: reSubG (patAndroidBlock k) fuel' rest := by
          simp only [reSubG, hpat]
        rw [hres] at hne ⊢
        have hne' : reSubG (patAndroidBlock k) fuel' rest ≠ rest := by
          intro hh
          exact hne (by rw [hh])
        obtain ⟨s', hs', hsome'⟩ := ih rest (by simpa using hlen) hne'
        exact ⟨s', hs'.trans (List.suffix_cons _ _), hsome'⟩

/-! ### Every version occurrence in the patched text carries the target group -/

theorem reSubG_sub_allTarget (k : Bool) :
    ∀ (fuel : Nat) (l : List Char), l.length ≤ fuel →
      ∀ s, s <:+ reSubG (patKtsNdkSub k) fuel l →
      ∀ g r, patKtsNdkV s = some (g, r) → g = targetNdk := by
  intro fuel
  induction fuel with
  | zero =>
    intro l hlen s hs g r hgr
    have hl : l = [] := by
      cases l with
      | nil => rfl
      | cons a b =>
        simp only [List.length_cons] at hlen
        omega
    subst hl
    rw [reSubG_nil] at hs
    rw [List.suffix_nil.mp hs, patKtsNdkV_nil] at hgr
    exact absurd hgr (by simp)
  | succ fuel' ih =>
    intro l hlen s hs g r hgr
    cases l with
    | nil =>
      rw [reSubG_nil] at hs
      rw [List.suffix_nil.mp hs, patKtsNdkV_nil] at hgr
      exact absurd hgr (by simp)
    | cons c rest =>
      cases hpat : patKtsNdkSub k (c :: rest) with
      | some rr =>
        obtain ⟨r₁, r₂⟩ := rr
        have hres : reSubG (patKtsNdkSub k) (fuel' + 1) (c :: rest) =
            r₁ ++ reSubG (patKtsNdkSub k) fuel' r₂ := by
          simp only [reSubG, hpat]
        rw [hres] at hs
        have hshrink := patKtsNdkSub_shrink k _ _ _ hpat
        have hlen' : r₂.length ≤ fuel' := by
          simp only [List.length_cons] at hlen hshrink
          omega
        obtain ⟨hr₁, g0, hg0⟩ := patKtsNdkSub_some_parts k _ _ _ hpat
        rcases suffix_append_split s r₁ _ hs with h1 | ⟨s₁, hs₁, hne₁, rfl⟩
        · exact ih r₂ hlen' s h1 g r hgr
        · by_cases hfull : s₁ = r₁
          · subst hfull
            rw [hr₁, patKtsNdkV_repl] at hgr
            exact ((Prod.mk.injEq _ _ _ _).mp (Option.some.inj hgr)).1.symm
          · rw [hr₁] at hs₁ hfull
            rw [repl_suffix_fail k s₁ _ hs₁ hfull hne₁] at hgr
            exact absurd hgr (by simp)
      | none =>
        have hres : reSubG (patKtsNdkSub k) (fuel' + 1) (c :: rest) =
            c :: reSubG (patKtsNdkSub k) fuel' rest := by
          simp only [reSubG, hpat]
        rw [hres] at hs
        rcases List.suffix_cons_iff.mp hs with h1 | h2
        · subst h1
          have hnone := reSubG_sub_none_preserve k fuel' [c] rest
            (by simpa using hlen) (by simp)
            (by simpa using (patKtsNdkSub_none_iff k _).mp hpat)
          rw [List.singleton_append] at hnone
          rw [hnone] at hgr
          exact absurd hgr (by simp)
        · exact ih rest (by simpa using hlen) s h2 g r hgr

theorem insert_pre_suffix_fail (sp : List Char)
    (hsp : ∀ x ∈ sp, isPySpace x = true) (s₂ X : List Char)
    (hs : s₂ <:+ "android".data ++ sp ++ obrace :: '\n' :: "    ".data)
    (hnil : s₂ ≠ []) :
    patKtsNdkV (s₂ ++ X) = none := by
  have hs' : s₂ <:+ ("android".data ++ sp) ++ obrace :: '\n' :: "    ".data := by
    simpa [List.append_assoc] using hs
  rcases suffix_append_split s₂ _ _ hs' with h1 | ⟨s₃, hs₃, hne₃, rfl⟩
  · obtain ⟨t, ht⟩ := h1
    have hs₂ : s₂ = (obrace :: '\n' :: "    ".data).drop t.length := by
      rw [← ht, List.drop_left]
    have hpos : 0 < s₂.length := List.length_pos.mpr hnil
    have htl : t.length ≤ 5 := by
      have hl6 := congrArg List.length ht
      rw [List.length_append] at hl6
      have h6 : (obrace :: '\n' :: "    ".data).length = 6 := rfl
      omega
    rw [hs₂]
    set i := t.length with hieq
    clear_value i
    interval_cases i <;> rfl
  · rcases suffix_append_split s₃ _ _ hs₃ with h2 | ⟨s₄, hs₄, hne₄, rfl⟩
    · cases s₃ with
      | nil => exact absurd rfl hne₃
      | cons x s₅ =>
        have hx : x ∈ sp := h2.subset (List.mem_cons_self x s₅)
        have hxs := hsp x hx
        have hxn : x ≠ 'n' := by
          intro hh
          rw [hh] at hxs
          exact absurd hxs (by decide)
        simp only [List.cons_append]
        exact patKtsNdkV_head x _ hxn
    · obtain ⟨t, ht⟩ := hs₄
      have hs₄' : s₄ = "android".data.drop t.length := by
        rw [← ht, List.drop_left]
      have hpos : 0 < s₄.length := List.length_pos.mpr hne₄
      have htl : t.length ≤ 6 := by
        have hl7 := congrArg List.length ht
        rw [List.length_append] at hl7
        have h7 : ("android".data).length = 7 := rfl
        omega
      rw [hs₄']
      set i := t.length with hieq
      clear_value i
      interval_cases i <;> rfl

theorem reSubG_and_allTarget (k : Bool) :
    ∀ (fuel : Nat) (l : List Char), l.length ≤ fuel →
      (∀ s, s <:+ l → s ≠ [] → patKtsNdkV s = none) →
      ∀ s, s <:+ reSubG (patAndroidBlock k) fuel l →
      ∀ g r, patKtsNdkV s = some (g, r) → g = targetNdk := by
  intro fuel
  induction fuel with
  | zero =>
    intro l hlen hall s hs g r hgr
    have hl : l = [] := by
      cases l with
      | nil => rfl
      | cons a b =>
        simp only [List.length_cons] at hlen
        omega
    subst hl
    rw [reSubG_nil] at hs
    rw [List.suffix_nil.mp hs, patKtsNdkV_nil] at hgr
    exact absurd hgr (by simp)
  | succ fuel' ih =>
    intro l hlen hall s hs g r hgr
    cases l with
    | nil =>
      rw [reSubG_nil] at hs
      rw [List.suffix_nil.mp hs, patKtsNdkV_nil] at hgr
      exact absurd hgr (by simp)
    | cons c rest =>
      cases hpat : patAndroidBlock k (c :: rest) with
      | some er =>
        obtain ⟨e, rem⟩ := er
        have hres : reSubG (patAndroidBlock k) (fuel' + 1) (c :: rest) =
            e ++ reSubG (patAndroidBlock k) fuel' rem := by
          simp only [reSubG, hpat]
        rw [hres] at hs
        obtain ⟨sp, hsp, hshape, hemit⟩ := patAndroidBlock_some_shape k _ _ _ hpat
        have hshrink := patAndroidBlock_shrink k _ _ _ hpat
        have hlenrem : rem.length ≤ fuel' := by
          simp only [List.length_cons] at hlen hshrink
          omega
        have hrem_suffix : rem <:+ c :: rest := by
          rw [hshape]
          refine ⟨"android".data ++ sp ++ [obrace], ?_⟩
          simp [List.append_assoc]
        have hall' : ∀ s, s <:+ rem → s ≠ [] → patKtsNdkV s = none :=
          fun s hsuf hne => hall s (hsuf.trans hrem_suffix) hne
        have hdecomp : e ++ reSubG (patAndroidBlock k) fuel' rem =
            ("android".data ++ sp ++ obrace :: '\n' :: "    ".data) ++
            ((if k then replNdkKts targetNdk else replNdkGroovy targetNdk) ++
              reSubG (patAndroidBlock k) fuel' rem) := by
          rw [hemit]
          simp [List.append_assoc, List.cons_append]
        rw [hdecomp] at hs
        rcases suffix_append_split s _ _ hs with h1 | ⟨s₂, hs₂, hne₂, rfl⟩
        · rcases suffix_append_split s _ _ h1 with h2 | ⟨s₁, hs₁, hne₁, rfl⟩
          · exact ih rem hlenrem hall' s h2 g r hgr
          · by_cases hfull :
              s₁ = (if k then replNdkKts targetNdk else replNdkGroovy targetNdk)
            · rw [hfull, patKtsNdkV_repl] at hgr
              exact ((Prod.mk.injEq _ _ _ _).mp (Option.some.inj hgr)).1.symm
            · rw [repl_suffix_fail k s₁ _ hs₁ hfull hne₁] at hgr
              exact absurd hgr (by simp)
        · rw [insert_pre_suffix_fail sp hsp s₂ _ hs₂ hne₂] at hgr
          exact absurd hgr (by simp)
      | none =>
        have hres : reSubG (patAndroidBlock k) (fuel' + 1) (c :: rest) =
            c :: reSubG (patAndroidBlock k) fuel' rest := by
          simp only [reSubG, hpat]
        rw [hres] at hs
        rcases List.suffix_cons_iff.mp hs with h1 | h2
        · subst h1
          have hnone := reSubG_and_none_preserve k fuel' [c] rest
            (by simpa using hlen)
            (by simpa using hall (c :: rest) (List.suffix_refl _) (by simp))
          rw [List.singleton_append] at hnone
          rw [hnone] at hgr
          exact absurd hgr (by simp)
        · have hall' : ∀ s, s <:+ rest → s ≠ [] → patKtsNdkV s = none :=
            fun s hsuf hne => hall s (hsuf.trans (List.suffix_cons c rest)) hne
          exact ih rest (by simpa using hlen) hall' s h2 g r hgr

/-! ### Unfolding equations for `fixKtsContent` -/

theorem fixKtsContent_eq_replace (k : Bool) (c g rest : List Char)
    (h : reSearchG patKtsNdkV c = some (g, rest)) (hg : g ≠ targetNdk) :
    fixKtsContent k c = (reSub (patKtsNdkSub k) c, true) := by
  unfold fixKtsContent
  rw [h]
  dsimp only
  rw [if_pos hg]

theorem fixKtsContent_eq_found (k : Bool) (c g rest : List Char)
    (h : reSearchG patKtsNdkV c = some (g, rest)) (hg : g = targetNdk) :
    fixKtsContent k c = (c, true) := by
  unfold fixKtsContent
  rw [h]
  dsimp only
  rw [if_neg (fun hh => hh hg)]

theorem fixKtsContent_eq_insert_none (k : Bool) (c : List Char)
    (h : reSearchG patKtsNdkV c = none)
    (hn : reSub (patAndroidBlock k) c = c) :
    fixKtsContent k c = (c, false) := by
  unfold fixKtsContent
  rw [h]
  dsimp only
  rw [if_pos hn]

theorem fixKtsContent_eq_insert_some (k : Bool) (c : List Char)
    (h : reSearchG patKtsNdkV c = none)
    (hn : reSub (patAndroidBlock k) c ≠ c) :
    fixKtsContent k c = (reSub (patAndroidBlock k) c, true) := by
  unfold fixKtsContent
  rw [h]
  dsimp only
  rw [if_neg hn]

/-- `fix_build_gradle_kts`'s content transformation is idempotent: a second
application returns exactly the same pair (same text, same flag). -/
theorem fixKtsContent_idem (k : Bool) (c : List Char) :
    fixKtsContent k (fixKtsContent k c).1 = fixKtsContent k c := by
  cases hr : reSearchG patKtsNdkV c with
  | some gr =>
    obtain ⟨g, rest⟩ := gr
    by_cases hg : g = targetNdk
    · rw [fixKtsContent_eq_found k c g rest hr hg]
      exact fixKtsContent_eq_found k c g rest hr hg
    · rw [fixKtsContent_eq_replace k c g rest hr hg]
      obtain ⟨s, hsuf, hps⟩ := reSearchG_some_suffix _ _ _ hr
      have hex : ∃ s, s <:+ c ∧ (patKtsNdkV s).isSome = true :=
        ⟨s, hsuf, by rw [hps]; rfl⟩
      obtain ⟨s', hs', hsome'⟩ :=
        reSubG_sub_has_match k c.length c (le_refl _) hex
      have hsearch :
          (reSearchG patKtsNdkV (reSub (patKtsNdkSub k) c)).isSome = true :=
        reSearchG_isSome_of patKtsNdkV patKtsNdkV_nil _ s' hs' hsome'
      obtain ⟨⟨g', rest'⟩, hg'⟩ := Option.isSome_iff_exists.mp hsearch
      obtain ⟨s'', hs'', hps''⟩ := reSearchG_some_suffix _ _ _ hg'
      have htar : g' = targetNdk :=
        reSubG_sub_allTarget k c.length c (le_refl _) s'' hs'' g' rest' hps''
      exact fixKtsContent_eq_found k _ g' rest' hg' htar
  | none =>
    by_cases hn : reSub (patAndroidBlock k) c = c
    · rw [fixKtsContent_eq_insert_none k c hr hn]
      exact fixKtsContent_eq_insert_none k c hr hn
    · rw [fixKtsContent_eq_insert_some k c hr hn]
      obtain ⟨s', hs', hsome'⟩ :=
        reSubG_and_has_match k c.length c (le_refl _) hn
      have hsearch :
          (reSearchG patKtsNdkV (reSub (patAndroidBlock k) c)).isSome = true :=
        reSearchG_isSome_of patKtsNdkV patKtsNdkV_nil _ s' hs' hsome'
      obtain ⟨⟨g', rest'⟩, hg'⟩ := Option.isSome_iff_exists.mp hsearch
      obtain ⟨s'', hs'', hps''⟩ := reSearchG_some_suffix _ _ _ hg'
      have hall : ∀ s, s <:+ c → s ≠ [] → patKtsNdkV s = none :=
        reSearchG_none_all patKtsNdkV c hr
      have htar : g' = targetNdk :=
        reSubG_and_allTarget k c.length c (le_refl _) hall s'' hs''
          g' rest' hps''
      exact fixKtsContent_eq_found k _ g' rest' hg' htar

/-- `update_gradle_ndk_version`'s return value is a changed-flag, not a
success-flag: it is `true` exactly when the content was altered. -/
theorem update_gradle_ndk_content_flag (v c : List Char) :
    (update_gradle_ndk_content v c).2 = true ↔
      (update_gradle_ndk_content v c).1 ≠ c := by
  unfold update_gradle_ndk_content
  split_ifs with h1
  · dsimp only
    by_cases h2 : reSub (patUpdateNdk v) c ≠ c
    · rw [if_pos h2]
      simp [h2]
    · rw [if_neg h2]
      simp only [ne_eq, not_not] at h2
      simp [h2]
  · simp

/-- Claim C3 counterexample: `update_gradle_ndk_version` is not idempotent
and its return does not report success on an unchanged file. On the content
`ndkVersion "abc ndkVersion\n"x"` the second application of the
`ndkVersion\s+[\x27"].*?[\x27"]` substitution changes the text again (the
lazy quote scan of the first pass stops inside the original text, leaving a
fragment that the second pass rewrites differently); and on an ordinary
already-patched script the second application returns `False`. -/
theorem C3_counterexample :
    (update_gradle_ndk_content targetNdk
        (update_gradle_ndk_content targetNdk gradleNewlineContent).1).1 ≠
      (update_gradle_ndk_content targetNdk gradleNewlineContent).1 ∧
    (update_gradle_ndk_content targetNdk
        (update_gradle_ndk_content targetNdk gradleSimpleContent).1).2 =
      false := by
  constructor
  · decide
  · decide

/-- Claim C3, amended: among the cited config-patch operations only
`fix_build_gradle_kts` is idempotent — a second application of its content
transformation returns the identical (text, flag) pair; `update_gradle_ndk_version`
is not idempotent in general, and its boolean return reports whether the
content changed (so an already-patched file yields `False`, not success). -/
theorem C3_patch_twice_amended :
    (∀ (k : Bool) (c : List Char),
      fixKtsContent k (fixKtsContent k c).1 = fixKtsContent k c) ∧
    (∀ (v c : List Char),
      (update_gradle_ndk_content v c).2 = true ↔
        (update_gradle_ndk_content v c).1 ≠ c) :=
  ⟨fun k c => fixKtsContent_idem k c,
   fun v c => update_gradle_ndk_content_flag v c⟩

end RunEmuAndroid
